import Mathlib

/-!
Verification of the rules/state engine of a turn-based tile-placement game
(svelte-citadel-2). The definitions below are a shallow embedding of the
JavaScript sources:

- src/lib/game/engine/Coordinate.js     (Coordinate)
- src/lib/game/engine/Cell.js           (Cell)
- src/lib/game/engine/GameState.js      (GameState, the Cell-based version)
- src/lib/game/engine/GameEngine.js     (GameEngine.checkAction, executeAction,
                                         validateCitadelConnectivity)
- src/lib/game/engine/GameStateReplay.js (GameStateReplay.replayToFullState)
- src/lib/game/engine/PersistentGameState.js (PersistentGameState)
- src/lib/game/actions/Action.js        (Action.check, Place.check/perform)
- src/lib/game/actions/Move.js          (Move.check/perform, the
                                         Coordinate-target version)
- src/lib/game/pieces/Piece.js, Builder.js, Land.js

Modelling conventions, applied uniformly:

- JavaScript Date values are modelled as Nat (milliseconds). Each call of
  the form new Date() reads an ambient wall clock, modelled as an explicit
  parameter now : Nat threaded into every operation that can touch a
  timestamp. Date.toISOString is injective on millisecond values, so
  equality of serialized states is equality of these Nat fields.
- The canonical string key of a coordinate, produced by x + comma + y and
  parsed back by Coordinate.fromKey, is a bijection between canonical keys
  and coordinate pairs; the key is therefore modelled by the coordinate
  itself, and Coordinate.fromKey composed with key is the identity by
  construction. Coordinate strings inside action payloads are modelled the
  same way (the parenthesis/space stripping in the replay code reproduces
  the canonical key).
- A JavaScript Map is modelled as an association list with Map semantics:
  set on an existing key updates in place (keeping insertion order), set on
  a fresh key appends; get returns the first (unique) binding.
- Mutation is modelled by explicit state passing: every method that writes
  the receiver returns the updated value. getCell, which inserts an empty
  cell on a missing key, is modelled by getCellRun returning the cell and
  the updated state.
- Exceptions are modelled with Except. RuleViolation and plain Error
  throws are distinguished where the sources distinguish them.
-/

namespace Citadel2

/-- Coordinate.js: immutable integer pair. The string key is modelled by the
pair itself (see the conventions above). -/
structure Coordinate where
  x : Int
  y : Int
deriving DecidableEq

instance : Inhabited Coordinate := ⟨⟨0, 0⟩⟩

/-- Coordinate.equals: componentwise equality. -/
def Coordinate.equals (a b : Coordinate) : Bool :=
  a.x == b.x && a.y == b.y

/-- Coordinate.getOrthogonalAdjacent: north, east, south, west. -/
def Coordinate.getOrthogonalAdjacent (c : Coordinate) : List Coordinate :=
  [⟨c.x, c.y + 1⟩, ⟨c.x + 1, c.y⟩, ⟨c.x, c.y - 1⟩, ⟨c.x - 1, c.y⟩]

/-- Coordinate.isOrthogonallyAdjacentTo: Manhattan-distance-one on one axis. -/
def Coordinate.isOrthogonallyAdjacentTo (a b : Coordinate) : Bool :=
  let dx := (a.x - b.x).natAbs
  let dy := (a.y - b.y).natAbs
  (dx == 1 && dy == 0) || (dx == 0 && dy == 1)

/-- Piece.toJSON output shape: type, owner and id only. -/
structure PieceJSON where
  type : String
  owner : String
  id : String
deriving DecidableEq

/-- Piece.js: a piece value. The _gameState back reference is dropped (it is
not serialized and carries no data); _coordinate is kept. -/
structure Piece where
  type : String
  owner : String
  id : String
  coordinate : Option Coordinate := none
deriving DecidableEq

/-- Piece.toJSON: type, owner, id; the coordinate is not serialized. -/
def Piece.toJSON (p : Piece) : PieceJSON :=
  { type := p.type, owner := p.owner, id := p.id }

/-- Piece.copy: fresh piece with the same type, owner and id. The copy does
not receive the source piece's _coordinate (the constructor sets it null). -/
def Piece.copy (p : Piece) : Piece :=
  { type := p.type, owner := p.owner, id := p.id, coordinate := none }

/-- Piece.isTerrain: false in the base class, overridden to true by Land. -/
def Piece.isTerrain (p : Piece) : Bool :=
  p.type == "Land"

/-- Cell.js: coordinate plus an optional terrain occupant and an optional
piece occupant. The gameState back reference is dropped (always set in the
states the engine builds; it only gates coordinate bookkeeping). -/
structure Cell where
  coordinate : Coordinate
  terrain : Option Piece := none
  piece : Option Piece := none
deriving DecidableEq

/-- Cell.empty. -/
def Cell.empty (c : Coordinate) : Cell :=
  { coordinate := c }

/-- Cell.setTerrain: stores the terrain and points its coordinate at this
cell (terrain._setCoordinate in the source). -/
def Cell.setTerrainFn (cell : Cell) (t : Option Piece) : Cell :=
  { cell with terrain := t.map (fun q => { q with coordinate := some cell.coordinate }) }

/-- Cell.setPiece: stores the piece and points its coordinate at this cell;
the previous occupant's coordinate is nulled (it leaves the cell here, so
only the stored value matters). -/
def Cell.setPieceFn (cell : Cell) (p : Option Piece) : Cell :=
  { cell with piece := p.map (fun q => { q with coordinate := some cell.coordinate }) }

/-- Cell.clear: removes both occupants and returns them; the removed piece's
coordinate is nulled before it is returned (piece._setCoordinate(null)). -/
def Cell.clearFn (cell : Cell) : Cell × (Option Piece × Option Piece) :=
  ({ cell with terrain := none, piece := none },
   (cell.terrain, cell.piece.map (fun q => { q with coordinate := none })))

/-- Cell.toJSON output shape. -/
structure CellJSON where
  coordinate : Coordinate
  terrain : Option PieceJSON
  piece : Option PieceJSON
deriving DecidableEq

/-- Cell.toJSON: the cell's own coordinate key plus serialized occupants. -/
def Cell.toJSON (cell : Cell) : CellJSON :=
  { coordinate := cell.coordinate,
    terrain := cell.terrain.map Piece.toJSON,
    piece := cell.piece.map Piece.toJSON }

/-- JavaScript Map get: first binding of the key, if any. -/
def mapGet? {α β : Type} [BEq α] (m : List (α × β)) (k : α) : Option β :=
  (m.find? (fun e => e.1 == k)).map (fun e => e.2)

/-- JavaScript Map set: update the (unique) binding in place when the key
is present, keeping insertion order, append otherwise. -/
def mapSet {α β : Type} [BEq α] (m : List (α × β)) (k : α) (v : β) : List (α × β) :=
  match m with
  | [] => [(k, v)]
  | e :: rest => if e.1 == k then (k, v) :: rest else e :: mapSet rest k v

/-- PersistentGameState.js typedef ActionData: the union of the per-type
payload shapes, with absent fields none. -/
structure ActionData where
  «at» : Option Coordinate := none
  «from» : Option Coordinate := none
  «to» : Option Coordinate := none
  captured : Option String := none
  capturedType : Option String := none
  capturedOwner : Option String := none
deriving DecidableEq

/-- PersistentGameState.js typedef GameAction: one persisted log entry. -/
structure GameAction where
  type : String
  pieceId : String
  data : ActionData
  timestamp : Nat
  turnNumber : Nat
  player : String
deriving DecidableEq

/-- The object literal passed to GameState.addAction by the era of actions
that record flat fields (Move.js records from/to/captured at top level;
the GameState terrain helpers record a nested data object). Absent fields
are none. -/
structure LivePayload where
  type : String
  pieceId : String
  «at» : Option Coordinate := none
  «from» : Option Coordinate := none
  «to» : Option Coordinate := none
  captured : Option String := none
  capturedType : Option String := none
  capturedOwner : Option String := none
  data : Option ActionData := none
deriving DecidableEq

/-- The record GameState.addAction pushes: the payload spread plus
timestamp, turnNumber and player (players[currentPlayerIndex], which can be
undefined, hence Option). -/
structure LiveEntry where
  payload : LivePayload
  timestamp : Nat
  turnNumber : Nat
  player : Option String
deriving DecidableEq

/-- An actionHistory element: either a persisted GameAction pushed verbatim
during replay, or an entry built by GameState.addAction during live play. -/
inductive HistEntry where
  | replayed (a : GameAction)
  | live (e : LiveEntry)
deriving DecidableEq

/-- GameState.js typedef PlayerInfo. -/
structure PlayerInfo where
  id : String
  name : String
deriving DecidableEq

/-- GameState.js (the Cell-based version at the end of the GameStateReplay
concatenation): the full mutable game state. setup is modelled as a flat
string-keyed object. -/
structure GameState where
  isSimulation : Bool := false
  gameId : Option String := none
  board : List (Coordinate × Cell) := []
  players : List String := []
  playerInfo : List PlayerInfo := []
  currentPlayerIndex : Nat := 0
  turnNumber : Nat := 1
  playerStashes : List (String × List Piece) := []
  communityPool : List Piece := []
  graveyard : List Piece := []
  actionHistory : List HistEntry := []
  createdAt : Nat
  lastModified : Nat
  phase : String := "lobby"
  hostPlayerId : Option String := none
  setup : Option (List (String × String)) := none
deriving DecidableEq

/-- The GameState constructor: everything defaulted, both Date fields read
the wall clock. -/
def GameState.new (isSim : Bool) (now : Nat) : GameState :=
  { isSimulation := isSim, createdAt := now, lastModified := now }

/-- GameState.currentPlayer: players[currentPlayerIndex], undefined when the
index is out of range. -/
def GameState.currentPlayer? (s : GameState) : Option String :=
  s.players.get? s.currentPlayerIndex

/-- GameState._updateLastModified: refresh the timestamp unless this state
is a simulation copy. -/
def GameState.updateLastModified (s : GameState) (now : Nat) : GameState :=
  if s.isSimulation then s else { s with lastModified := now }

/-- GameState.getCell: return the stored cell, or insert and return a fresh
empty cell when the coordinate has no entry. -/
def GameState.getCellRun (s : GameState) (c : Coordinate) : Cell × GameState :=
  match mapGet? s.board c with
  | some cell => (cell, s)
  | none =>
      let cell := Cell.empty c
      (cell, { s with board := mapSet s.board c cell })

/-- Pure observation of the terrain occupant at a coordinate (the value
GameState.getTerrainAt returns; the incidental empty-cell insert performed
by getCell is proven serialization-neutral below). -/
def GameState.terrainAt? (s : GameState) (c : Coordinate) : Option Piece :=
  (mapGet? s.board c).bind (fun cell => cell.terrain)

/-- Pure observation of the piece occupant at a coordinate (the value
GameState.getPieceAt returns). -/
def GameState.pieceAt? (s : GameState) (c : Coordinate) : Option Piece :=
  (mapGet? s.board c).bind (fun cell => cell.piece)

/-- GameState.hasTerrain as a pure observation. -/
def GameState.hasTerrainB (s : GameState) (c : Coordinate) : Bool :=
  (s.terrainAt? c).isSome

/-- GameState.hasPiece as a pure observation. -/
def GameState.hasPieceB (s : GameState) (c : Coordinate) : Bool :=
  (s.pieceAt? c).isSome

/-- GameState.setTerrain without an acting piece (the only form the replay
and the Builder actions use): fetch-or-insert the cell, store the terrain,
refresh lastModified. -/
def GameState.setTerrain (s : GameState) (c : Coordinate) (t : Option Piece) (now : Nat) : GameState :=
  let (cell, s) := s.getCellRun c
  let s := { s with board := mapSet s.board c (cell.setTerrainFn t) }
  s.updateLastModified now

/-- GameState.setPiece: fetch-or-insert the cell, store the piece, refresh
lastModified. -/
def GameState.setPiece (s : GameState) (c : Coordinate) (p : Option Piece) (now : Nat) : GameState :=
  let (cell, s) := s.getCellRun c
  let s := { s with board := mapSet s.board c (cell.setPieceFn p) }
  s.updateLastModified now

/-- GameState.removeTerrain without an acting piece: clear the terrain slot
when occupied and return the removed terrain. -/
def GameState.removeTerrain (s : GameState) (c : Coordinate) (now : Nat) : Option Piece × GameState :=
  let (cell, s) := s.getCellRun c
  match cell.terrain with
  | some t =>
      let s := { s with board := mapSet s.board c (cell.setTerrainFn none) }
      (some t, s.updateLastModified now)
  | none => (none, s)

/-- GameState.addToCommunityPool. -/
def GameState.addToCommunityPool (s : GameState) (p : Piece) (now : Nat) : GameState :=
  ({ s with communityPool := s.communityPool ++ [p] }).updateLastModified now

/-- GameState.getLandFromCommunityPool: remove and return the first Land
piece of the pool, if any. -/
def GameState.getLandFromCommunityPool (s : GameState) (now : Nat) : Option Piece × GameState :=
  match s.communityPool.findIdx? (fun p => p.type == "Land") with
  | some i =>
      let land := s.communityPool.get? i
      let s := ({ s with communityPool := s.communityPool.eraseIdx i }).updateLastModified now
      (land, s)
  | none => (none, s)

/-- GameState.moveToGraveyard. -/
def GameState.moveToGraveyard (s : GameState) (p : Piece) (now : Nat) : GameState :=
  ({ s with graveyard := s.graveyard ++ [p] }).updateLastModified now

/-- GameState.removeCellContents without an acting piece (the form the
Builder and the replay use): clear the cell, send the terrain to the pool
and the piece to the graveyard, refresh lastModified. -/
def GameState.removeCellContents (s : GameState) (c : Coordinate) (now : Nat) :
    (Option Piece × Option Piece) × GameState :=
  let (cell, s) := s.getCellRun c
  let (cell, tp) := cell.clearFn
  let s := { s with board := mapSet s.board c cell }
  let s := match tp.1 with
    | some t => s.addToCommunityPool t now
    | none => s
  let s := match tp.2 with
    | some p => s.moveToGraveyard p now
    | none => s
  (tp, s.updateLastModified now)

/-- GameState.nextTurn. With an empty player list the JavaScript modulo
yields NaN; the Nat modulo below is total instead — the difference is
unreachable from the engine and irrelevant to every claim. -/
def GameState.nextTurn (s : GameState) (now : Nat) : GameState :=
  let idx := (s.currentPlayerIndex + 1) % s.players.length
  let s := { s with currentPlayerIndex := idx }
  let s := if idx == 0 then { s with turnNumber := s.turnNumber + 1 } else s
  s.updateLastModified now

/-- GameState.addAction: push the payload extended with timestamp,
turnNumber and the current player, then refresh lastModified. -/
def GameState.addAction (s : GameState) (payload : LivePayload) (now : Nat) : GameState :=
  let entry : LiveEntry :=
    { payload := payload, timestamp := now, turnNumber := s.turnNumber,
      player := s.currentPlayer? }
  ({ s with actionHistory := s.actionHistory ++ [HistEntry.live entry] }).updateLastModified now

/-- GameState.copy: deep copy. Board cells are rebuilt (new Cell with copied
occupants, the coordinate recovered from the key), pieces are copied (the
piece copy drops the coordinate), collections are rebuilt, the action
history array is copied shallowly (entries are immutable values here), and
the metadata is carried over. The isSimulation flag of the copy is the
option when given, otherwise inherited. -/
def GameState.copy (s : GameState) (isSimOpt : Option Bool) : GameState :=
  { isSimulation := isSimOpt.getD s.isSimulation,
    gameId := s.gameId,
    board := s.board.map (fun e =>
      (e.1, { coordinate := e.1,
              terrain := e.2.terrain.map Piece.copy,
              piece := e.2.piece.map Piece.copy : Cell })),
    players := s.players,
    playerInfo := s.playerInfo,
    currentPlayerIndex := s.currentPlayerIndex,
    turnNumber := s.turnNumber,
    playerStashes := s.playerStashes.map (fun e => (e.1, e.2.map Piece.copy)),
    communityPool := s.communityPool.map Piece.copy,
    graveyard := s.graveyard.map Piece.copy,
    actionHistory := s.actionHistory,
    createdAt := s.createdAt,
    lastModified := s.lastModified,
    phase := s.phase,
    hostPlayerId := s.hostPlayerId,
    setup := s.setup }

/-- The board array GameState.toJSON emits: cells with at least one
occupant, serialized in board order. -/
def boardToJSONList (bl : List (Coordinate × Cell)) : List CellJSON :=
  bl.filterMap (fun e =>
    if e.2.terrain.isSome || e.2.piece.isSome then some e.2.toJSON else none)

/-- The cell GameState.fromJSON rebuilds from one serialized board entry. -/
def cellFromJSON (f : PieceJSON → Piece) (cj : CellJSON) : Cell :=
  { coordinate := cj.coordinate, terrain := cj.terrain.map f, piece := cj.piece.map f }

/-- GameState.toJSON output shape (GameStateJSON in the source). -/
structure StashJSON where
  playerId : String
  stash : List PieceJSON
deriving DecidableEq

/-- GameState.toJSON output shape (GameStateJSON in the source). -/
structure GameStateJSON where
  gameId : Option String
  board : List CellJSON
  players : List String
  playerInfo : List PlayerInfo
  currentPlayerIndex : Nat
  turnNumber : Nat
  playerStashes : List StashJSON
  communityPool : List PieceJSON
  graveyard : List PieceJSON
  actionHistory : List HistEntry
  createdAt : Nat
  lastModified : Nat
  phase : String
  hostPlayerId : Option String
  setup : Option (List (String × String))
deriving DecidableEq

/-- GameState.toJSON: cells with at least one occupant are serialized (via
Cell.toJSON, which emits the cell's own coordinate); empty cells are
skipped. -/
def GameState.toJSON (s : GameState) : GameStateJSON :=
  { gameId := s.gameId,
    board := boardToJSONList s.board,
    players := s.players,
    playerInfo := s.playerInfo,
    currentPlayerIndex := s.currentPlayerIndex,
    turnNumber := s.turnNumber,
    playerStashes := s.playerStashes.map (fun e =>
      { playerId := e.1, stash := e.2.map Piece.toJSON }),
    communityPool := s.communityPool.map Piece.toJSON,
    graveyard := s.graveyard.map Piece.toJSON,
    actionHistory := s.actionHistory,
    createdAt := s.createdAt,
    lastModified := s.lastModified,
    phase := s.phase,
    hostPlayerId := s.hostPlayerId,
    setup := s.setup }

/-- GameState.fromJSON: rebuild the board by sequential Map.set over the
serialized cells (the key is the serialized coordinate, the cell is rebuilt
with pieces recreated through pieceFromJSON), then restore the remaining
fields. The constructor timestamps are overwritten from the data. -/
def GameState.fromJSON (d : GameStateJSON) (f : PieceJSON → Piece) : GameState :=
  { isSimulation := false,
    gameId := d.gameId,
    board := d.board.foldl (fun b cj => mapSet b cj.coordinate (cellFromJSON f cj)) [],
    players := d.players,
    playerInfo := d.playerInfo,
    currentPlayerIndex := d.currentPlayerIndex,
    turnNumber := d.turnNumber,
    playerStashes := d.playerStashes.map (fun e => (e.playerId, e.stash.map f)),
    communityPool := d.communityPool.map f,
    graveyard := d.graveyard.map f,
    actionHistory := d.actionHistory,
    createdAt := d.createdAt,
    lastModified := d.lastModified,
    phase := d.phase,
    hostPlayerId := d.hostPlayerId,
    setup := d.setup }

/-! ## Actions (Action.js, Move.js, Builder.js, the Coordinate-target era)

The engine hands actions the target cell; these actions consult only its
coordinate, which the embedding passes directly. An action instance is a
kind plus its constructor extras; the piece binding is passed alongside. -/

/-- An action as seen by the engine: the concrete subclass plus constructor
extras. The move kind carries the values of the overridable canMoveToWater
and canCapture methods (false/true in the Move base class). -/
inductive ActKind where
  | move (waterOk captureOk : Bool)
  | builderMove
  | place
  | builderMoveTerrain (sourceCoordinate : Option Coordinate)
  | builderRemoveTerrain
  | builderPlaceTerrain
deriving DecidableEq

/-- new ActionClass(simulationPiece) inside checkAction passes only the
piece, so constructor extras reset to their defaults; method overrides are
class-level and survive. -/
def ActKind.reinstantiate : ActKind → ActKind
  | .builderMoveTerrain _ => .builderMoveTerrain none
  | k => k

/-- Whether an action kind belongs to the Place family (which skips the
base validation). -/
def ActKind.isPlaceFamily : ActKind → Bool
  | .place => true
  | _ => false

/-- RuleViolation versus a plain Error throw. -/
inductive PerformErr where
  | ruleViolation (msg : String)
  | jsError (msg : String)
deriving DecidableEq

deriving instance DecidableEq for Except

/-- Action.check (Action.js 24-33): the piece must be on the board and it
must be the owning player's turn. currentPlayer can be undefined, which
also fails the strict equality with the owner. -/
def actionBaseCheck (p : Piece) (cur : GameState) : Except String Unit :=
  if p.coordinate.isNone then
    Except.error ("Piece must be placed on the board to perform actions")
  else if cur.currentPlayer? != some p.owner then
    Except.error ("It is not this players turn")
  else
    Except.ok ()

/-- Move.check (Move.js 16-41): base check, no self-target, terrain or a
water-capable piece, and collision rules (own piece never, enemy piece only
when capture-capable). -/
def moveCheck (waterOk captureOk : Bool) (p : Piece) (target : Coordinate)
    (cur : GameState) : Except String Unit := do
  actionBaseCheck p cur
  if (p.coordinate.map (fun c => c.equals target)).getD false then
    Except.error ("Cannot move to the same position")
  else if !(cur.hasTerrainB target) && !waterOk then
    Except.error ("Cannot move to water without terrain")
  else
    match cur.pieceAt? target with
    | some tp =>
        if tp.owner == p.owner then
          Except.error ("Cannot move to a square occupied by your own piece")
        else if !captureOk then
          Except.error ("This piece cannot capture")
        else Except.ok ()
    | none => Except.ok ()

/-- BuilderMove.check (Builder.js 54-67): explicit on-board check, then
orthogonal adjacency, then the Move base validation. -/
def builderMoveCheck (p : Piece) (target : Coordinate) (cur : GameState) :
    Except String Unit :=
  match p.coordinate with
  | none => Except.error ("Builder must be on the board to move")
  | some c =>
      if !(c.isOrthogonallyAdjacentTo target) then
        Except.error ("Builder can only move to orthogonally adjacent squares")
      else
        moveCheck false true p target cur

/-- Place.check (Action.js 79-100): the base validation is deliberately
skipped (commented out in the source); only occupancy and terrain-layer
stacking are checked. -/
def placeCheck (p : Piece) (target : Coordinate) (cur : GameState) :
    Except String Unit :=
  if cur.hasPieceB target then
    Except.error ("Cannot place piece where a piece already exists")
  else if p.type == "Land" then
    if cur.hasTerrainB target then
      Except.error ("Cannot place terrain where terrain already exists")
    else Except.ok ()
  else if !(cur.hasTerrainB target) && !p.isTerrain then
    Except.error ("Cannot place piece where no terrain exists")
  else Except.ok ()

/-- Builder.isOrthogonallyAdjacentTo via the piece (false when off board). -/
def pieceOrthAdj (p : Piece) (target : Coordinate) : Bool :=
  (p.coordinate.map (fun c => c.isOrthogonallyAdjacentTo target)).getD false

/-- BuilderMoveTerrain.check (Builder.js 135-157). -/
def builderMoveTerrainCheck (src : Option Coordinate) (p : Piece)
    (target : Coordinate) (cur : GameState) : Except String Unit := do
  actionBaseCheck p cur
  match src with
  | none => Except.error ("Source coordinate must be specified for terrain movement")
  | some sc =>
      if !(pieceOrthAdj p sc) then
        Except.error ("Builder must be orthogonally adjacent to the terrain to move")
      else
        match cur.terrainAt? sc with
        | some t =>
            if t.type != "Land" then
              Except.error ("Source coordinate must have a land tile")
            else if !(sc.isOrthogonallyAdjacentTo target) then
              Except.error ("Land tile can only be moved to orthogonally adjacent positions")
            else Except.ok ()
        | none => Except.error ("Source coordinate must have a land tile")

/-- BuilderRemoveTerrain.check (Builder.js 250-263): base check, orthogonal
adjacency, and a Land tile at the target. No connectivity condition is
consulted. -/
def builderRemoveTerrainCheck (p : Piece) (target : Coordinate)
    (cur : GameState) : Except String Unit := do
  actionBaseCheck p cur
  if !(pieceOrthAdj p target) then
    Except.error ("Builder must be orthogonally adjacent to the terrain to remove")
  else
    match cur.terrainAt? target with
    | some t =>
        if t.type != "Land" then
          Except.error ("Target coordinate must have a land tile to remove")
        else Except.ok ()
    | none => Except.error ("Target coordinate must have a land tile to remove")

/-- BuilderPlaceTerrain.check (Builder.js 337-355). -/
def builderPlaceTerrainCheck (p : Piece) (target : Coordinate)
    (cur : GameState) : Except String Unit := do
  actionBaseCheck p cur
  if !(pieceOrthAdj p target) then
    Except.error ("Builder must be orthogonally adjacent to the placement location")
  else if cur.hasTerrainB target then
    Except.error ("Cannot place terrain on existing terrain")
  else if !(cur.communityPool.any (fun q => q.type == "Land")) then
    Except.error ("No land tiles available in community pool")
  else Except.ok ()

/-- Dispatch of check over the embedded action classes. The newGame
argument of the source signature is unused by every embedded subclass. -/
def checkAct (k : ActKind) (p : Piece) (target : Coordinate)
    (cur _newGame : GameState) : Except String Unit :=
  match k with
  | .move waterOk captureOk => moveCheck waterOk captureOk p target cur
  | .builderMove => builderMoveCheck p target cur
  | .place => placeCheck p target cur
  | .builderMoveTerrain src => builderMoveTerrainCheck src p target cur
  | .builderRemoveTerrain => builderRemoveTerrainCheck p target cur
  | .builderPlaceTerrain => builderPlaceTerrainCheck p target cur

/-- Move.perform (Move.js 48-80): capture an enemy occupant to the
graveyard, vacate the origin, occupy the target, record one move entry with
the captured id (top-level fields in this era). Throws a plain Error when
the piece is off board. -/
def movePerform (p : Piece) (target : Coordinate) (s : GameState) (now : Nat) :
    Except PerformErr GameState :=
  match p.coordinate with
  | none => Except.error (.jsError ("Piece must be on the board to move"))
  | some fromC =>
      let (cell, s) := s.getCellRun target
      let targetPiece := cell.piece
      let s := match targetPiece with
        | some tp => if tp.owner != p.owner then s.moveToGraveyard tp now else s
        | none => s
      let s := s.setPiece fromC none now
      let s := s.setPiece target (some p) now
      let s := s.addAction
        { type := "move", pieceId := p.id,
          «from» := some fromC, «to» := some target,
          captured := targetPiece.map (fun tp => tp.id),
          capturedType := targetPiece.map (fun tp => tp.type),
          capturedOwner := targetPiece.map (fun tp => tp.owner) } now
      Except.ok s

/-- Place.perform (Action.js 107-118): place a copy of the piece with its
coordinate set; Land goes to the terrain layer. No action is recorded. -/
def placePerform (p : Piece) (target : Coordinate) (s : GameState) (now : Nat) :
    Except PerformErr GameState :=
  let placed := { p.copy with coordinate := some target }
  if p.type == "Land" then
    Except.ok (s.setTerrain target (some placed) now)
  else
    Except.ok (s.setPiece target (some placed) now)

/-- BuilderMoveTerrain.perform (Builder.js 164-188). -/
def builderMoveTerrainPerform (src : Option Coordinate) (target : Coordinate)
    (s : GameState) (now : Nat) : Except PerformErr GameState :=
  match src with
  | none => Except.error (.ruleViolation ("Source coordinate must be specified for terrain movement"))
  | some sc =>
      let (terrain, s) := s.removeTerrain sc now
      let (sourceCell, s) := s.getCellRun sc
      let s := match sourceCell.piece with
        | some q => (s.moveToGraveyard q now).setPiece sc none now
        | none => s
      let (targetCell, s) := s.getCellRun target
      let s := match targetCell.piece with
        | some q => (s.moveToGraveyard q now).setPiece target none now
        | none => s
      Except.ok (s.setTerrain target terrain now)

/-- BuilderRemoveTerrain.perform (Builder.js 270-282): note builderOnTarget
is decided before the cell is cleared, and the explicit moveToGraveyard
runs in addition to the graveyard insert removeCellContents already made. -/
def builderRemoveTerrainPerform (p : Piece) (target : Coordinate)
    (s : GameState) (now : Nat) : Except PerformErr GameState :=
  let builderOnTarget := (p.coordinate.map (fun c => c.equals target)).getD false
  let (_, s) := s.removeCellContents target now
  if builderOnTarget then
    Except.ok (s.moveToGraveyard p now)
  else
    Except.ok s

/-- BuilderPlaceTerrain.perform (Builder.js 362-378). -/
def builderPlaceTerrainPerform (target : Coordinate) (s : GameState)
    (now : Nat) : Except PerformErr GameState :=
  let (land, s) := s.getLandFromCommunityPool now
  match land with
  | none => Except.error (.ruleViolation ("No land tiles available in community pool"))
  | some landTile =>
      let (cell, s) := s.getCellRun target
      let s := match cell.piece with
        | some q => (s.moveToGraveyard q now).setPiece target none now
        | none => s
      Except.ok (s.setTerrain target (some landTile) now)

/-- Dispatch of perform over the embedded action classes. -/
def performAct (k : ActKind) (p : Piece) (target : Coordinate) (s : GameState)
    (now : Nat) : Except PerformErr GameState :=
  match k with
  | .move _ _ => movePerform p target s now
  | .builderMove => movePerform p target s now
  | .place => placePerform p target s now
  | .builderMoveTerrain src => builderMoveTerrainPerform src target s now
  | .builderRemoveTerrain => builderRemoveTerrainPerform p target s now
  | .builderPlaceTerrain => builderPlaceTerrainPerform target s now

/-! ## Engine (GameEngine.js) -/

/-- GameEngine._findPieceInState (GameEngine.js 335-345): first board cell
whose piece occupant has the id; that piece gets its coordinate restored
from the map key, in place. Returns the piece and the updated state. -/
def findPieceInState (pid : String) (s : GameState) : Option (Piece × GameState) :=
  match s.board.find? (fun e => (e.2.piece.map (fun q => q.id == pid)).getD false) with
  | some e =>
      match e.2.piece with
      | some q =>
          let q := { q with coordinate := some e.1 }
          some (q, { s with board := mapSet s.board e.1 { e.2 with piece := some q } })
      | none => none
  | none => none

/-- GameEngine.checkAction (GameEngine.js 63-96), with the live state
threaded through every call the source makes on it — a single non-mutating
copy — and returned alongside the result. The simulation flow: copy with
the simulation flag, locate the piece by id, fetch the target cell, build a
second copy, apply the action there, then run check against both. -/
def checkActionRun (s : GameState) (p : Piece) (k : ActKind)
    (target : Coordinate) (now : Nat) : Except PerformErr Unit × GameState :=
  let sim := s.copy (some true)
  match findPieceInState p.id sim with
  | none => (Except.error (.ruleViolation ("Piece not found on the board")), s)
  | some (simPiece, sim) =>
      let (_, sim) := sim.getCellRun target
      let simAct := k.reinstantiate
      let ns := sim.copy (some true)
      match findPieceInState p.id ns with
      | none => (Except.error (.ruleViolation ("Piece not found in new state")), s)
      | some (nsPiece, ns) =>
          let (_, ns) := ns.getCellRun target
          match performAct simAct nsPiece target ns now with
          | Except.error e => (Except.error e, s)
          | Except.ok ns =>
              match checkAct simAct simPiece target sim ns with
              | Except.error m => (Except.error (.ruleViolation m), s)
              | Except.ok _ => (Except.ok (), s)

/-- GameEngine.executeAction (GameEngine.js 105-120): checkAction, then the
original action performs against the live state. No variant is installed,
so the post-action hook is skipped. -/
def executeActionRun (s : GameState) (p : Piece) (k : ActKind)
    (target : Coordinate) (now : Nat) : Except PerformErr GameState :=
  match (checkActionRun s p k target now).1 with
  | Except.error e => Except.error e
  | Except.ok _ => performAct k p target s now

/-- The BFS loop of validateCitadelConnectivity, fueled. Every coordinate
is enqueued at most once (it is marked visited when pushed), and every
pushed coordinate bears terrain, so the number of loop iterations is
bounded by one plus the number of board entries. -/
def bfsTerrain (s : GameState) : Nat → List Coordinate → List Coordinate → List Coordinate
  | 0, visited, _ => visited
  | _ + 1, visited, [] => visited
  | fuel + 1, visited, cur :: rest =>
      let step := cur.getOrthogonalAdjacent.foldl
        (fun (vq : List Coordinate × List Coordinate) n =>
          if vq.1.contains n then vq
          else if s.hasTerrainB n then (vq.1 ++ [n], vq.2 ++ [n]) else vq)
        (visited, rest)
      bfsTerrain s fuel step.1 step.2

/-- GameEngine.validateCitadelConnectivity (GameEngine.js 364-389): gather
every Citadel on the board, then BFS over orthogonally adjacent terrain
from the first; all citadels must be visited. The board reads of the BFS
are the pure terrain observation (the source getCell insertions are
serialization-neutral). -/
def validateCitadelConnectivity (s : GameState) : Bool :=
  let citadels := s.board.filterMap (fun e =>
    if (e.2.piece.map (fun q => q.type == "Citadel")).getD false then some e.1 else none)
  match citadels with
  | [] => true
  | [_] => true
  | start :: _ =>
      let visited := bfsTerrain s (s.board.length + 1) [start] [start]
      citadels.all (fun c => visited.contains c)

/-! ## PersistentGameState and replay (PersistentGameState.js, GameStateReplay.js) -/

/-- PersistentGameState.js typedef InitialConfiguration. -/
structure InitialConfiguration where
  gameId : Option String
  players : List String
  playerInfo : List PlayerInfo
  createdAt : Nat
  phase : String
  hostPlayerId : Option String
  setup : Option (List (String × String))
  initialPieces : List PieceJSON
deriving DecidableEq

/-- PersistentGameState.js: initial configuration, ordered action log, and
the last-modified marker — nothing else. -/
structure PersistentGameState where
  initial : InitialConfiguration
  actions : List GameAction
  lastModified : Nat
deriving DecidableEq

/-- JavaScript truthiness of a nullable string (empty string is falsy). -/
def truthyStr (o : Option String) : Bool :=
  match o with
  | some c => c != ""
  | none => false

/-- Substring test for pieceId.includes of the replay fallback. -/
def strHasSub (hay needle : String) : Bool :=
  (List.range (hay.data.length + 1)).any (fun i => needle.data.isPrefixOf (hay.data.drop i))

/-- GameStateReplay._applyInitialConfiguration (GameStateReplay.js 46-69):
copy the initial fields onto the fresh state, give every listed player an
empty stash, and build the community pool from the initial pieces. -/
def applyInitialConfiguration (s : GameState) (init : InitialConfiguration)
    (f : PieceJSON → Piece) : GameState :=
  { s with
    gameId := init.gameId,
    phase := init.phase,
    hostPlayerId := init.hostPlayerId,
    setup := init.setup,
    createdAt := init.createdAt,
    players := init.players,
    playerInfo := init.playerInfo,
    playerStashes := init.players.foldl (fun m pid => mapSet m pid []) s.playerStashes,
    communityPool := init.initialPieces.map f }

/-- GameStateReplay._findPieceById (GameStateReplay.js 301-323): per board
cell first the piece then the terrain occupant, then the stashes in map
order, then the community pool, then the graveyard. -/
def findPieceById (s : GameState) (pid : String) : Option Piece :=
  let onBoard := s.board.findSome? (fun e =>
    match e.2.piece with
    | some q => if q.id == pid then some q else
        match e.2.terrain with
        | some t => if t.id == pid then some t else none
        | none => none
    | none =>
        match e.2.terrain with
        | some t => if t.id == pid then some t else none
        | none => none)
  match onBoard with
  | some q => some q
  | none =>
      match s.playerStashes.findSome? (fun e => e.2.find? (fun q => q.id == pid)) with
      | some q => some q
      | none =>
          match s.communityPool.find? (fun q => q.id == pid) with
          | some q => some q
          | none => s.graveyard.find? (fun q => q.id == pid)

/-- GameStateReplay._findOrCreatePiece (GameStateReplay.js 265-292): find by
id, else — only for place actions whose pieceId contains the substring
land — create a Land piece through pieceFromJSON owned by the acting player
(neutral when falsy). -/
def findOrCreatePiece (s : GameState) (pid : String) (a : GameAction)
    (f : PieceJSON → Piece) : Option Piece :=
  match findPieceById s pid with
  | some q => some q
  | none =>
      if a.type == "place" && strHasSub pid ("land") then
        some (f { id := pid, type := "Land",
                  owner := if truthyStr (some a.player) then a.player else "neutral" })
      else
        none

/-- GameStateReplay._replayPlaceAction (GameStateReplay.js 138-154): parse
the target, place a copy of the piece with its coordinate set; Land goes to
the terrain layer. A missing payload field throws before any mutation and
the error is swallowed by the caller. -/
def replayPlaceAction (s : GameState) (p : Piece) (a : GameAction) (now : Nat) : GameState :=
  match a.data.«at» with
  | none => s
  | some coord =>
      let placed := { p.copy with coordinate := some coord }
      if p.type == "Land" then
        s.setTerrain coord (some placed) now
      else
        s.setPiece coord (some placed) now

/-- GameStateReplay._replayMoveAction (GameStateReplay.js 164-184): vacate
the origin, send the target occupant to the graveyard when the entry
records a capture, then occupy the target. -/
def replayMoveAction (s : GameState) (p : Piece) (a : GameAction) (now : Nat) : GameState :=
  match a.data.«from», a.data.«to» with
  | some fromC, some toC =>
      let s := s.setPiece fromC none now
      let s :=
        if truthyStr a.data.captured then
          let (cell, s) := s.getCellRun toC
          match cell.piece with
          | some tp => s.moveToGraveyard tp now
          | none => s
        else s
      s.setPiece toC (some p) now
  | _, _ => s

/-- GameStateReplay._replayMoveTerrainAction (GameStateReplay.js 193-220). -/
def replayMoveTerrainAction (s : GameState) (a : GameAction) (now : Nat) : GameState :=
  match a.data.«from», a.data.«to» with
  | some fromC, some toC =>
      let (terrain, s) := s.removeTerrain fromC now
      let (sourceCell, s) := s.getCellRun fromC
      let s := match sourceCell.piece with
        | some q =>
            let s := s.moveToGraveyard q now
            { s with board := mapSet s.board fromC (sourceCell.setPieceFn none) }
        | none => s
      let (targetCell, s) := s.getCellRun toC
      let s := match targetCell.piece with
        | some q =>
            let s := s.moveToGraveyard q now
            { s with board := mapSet s.board toC (targetCell.setPieceFn none) }
        | none => s
      match terrain with
      | some t => s.setTerrain toC (some t) now
      | none => s
  | _, _ => s

/-- The capture-and-clear step inside _replayMoveTerrainAction: if the cell
has a piece occupant, move it to the graveyard and clear the cell on the
board.  Definitionally equal to the inline code of replayMoveTerrainAction. -/
def mtClearStep (s : GameState) (c : Coordinate) (cell : Cell) (now : Nat) : GameState :=
  match cell.piece with
  | some q =>
      let s2 := s.moveToGraveyard q now
      { s2 with board := mapSet s2.board c (cell.setPieceFn none) }
  | none => s

/-- GameStateReplay._replayRemoveTerrainAction (GameStateReplay.js 229-234). -/
def replayRemoveTerrainAction (s : GameState) (a : GameAction) (now : Nat) : GameState :=
  match a.data.«at» with
  | none => s
  | some coord => (s.removeCellContents coord now).2

/-- GameStateReplay._replayPlaceTerrainAction (GameStateReplay.js 244-254). -/
def replayPlaceTerrainAction (s : GameState) (a : GameAction) (now : Nat) : GameState :=
  match a.data.«at» with
  | none => s
  | some coord =>
      let (land, s) := s.getLandFromCommunityPool now
      match land with
      | some landPiece => s.setTerrain coord (some landPiece) now
      | none => s

/-- The player-index and turn-number synchronisation step of _replayAction. -/
def replayStep2 (s : GameState) (a : GameAction) : GameState :=
  let s := match s.players.findIdx? (fun q => q == a.player) with
    | some i => { s with currentPlayerIndex := i }
    | none => s
  { s with turnNumber := a.turnNumber }

/-- The per-type dispatch of _replayAction. -/
def replayDispatch (s : GameState) (pc : Option Piece) (a : GameAction)
    (now : Nat) : GameState :=
  match pc with
  | some p =>
      if a.type == "place" then replayPlaceAction s p a now
      else if a.type == "move" then replayMoveAction s p a now
      else if a.type == "move_terrain" then replayMoveTerrainAction s a now
      else if a.type == "remove_terrain" then replayRemoveTerrainAction s a now
      else if a.type == "place_terrain" then replayPlaceTerrainAction s a now
      else if a.type == "end_turn" then s.nextTurn now
      else s
  | none => if a.type == "end_turn" then s.nextTurn now else s

/-- The history-append and timestamp-pinning step of _replayAction. -/
def replayFinish (s : GameState) (a : GameAction) : GameState :=
  { s with actionHistory := s.actionHistory ++ [HistEntry.replayed a],
           lastModified := a.timestamp }

/-- GameStateReplay._replayAction (GameStateReplay.js 78-129): resolve the
acting piece (early return leaves the state untouched), restore the turn
context from the entry, dispatch on the action type (errors are caught and
swallowed; unknown types only warn), then push the entry to the history and
pin lastModified to the entry timestamp. -/
def replayAction (f : PieceJSON → Piece) (s : GameState) (a : GameAction)
    (now : Nat) : GameState :=
  let pc := findOrCreatePiece s a.pieceId a f
  if pc.isNone && a.type != "end_turn" then s
  else
    let s := match s.players.findIdx? (fun q => q == a.player) with
      | some i => { s with currentPlayerIndex := i }
      | none => s
    let s := { s with turnNumber := a.turnNumber }
    let s := match pc with
      | some p =>
          if a.type == "place" then replayPlaceAction s p a now
          else if a.type == "move" then replayMoveAction s p a now
          else if a.type == "move_terrain" then replayMoveTerrainAction s a now
          else if a.type == "remove_terrain" then replayRemoveTerrainAction s a now
          else if a.type == "place_terrain" then replayPlaceTerrainAction s a now
          else if a.type == "end_turn" then s.nextTurn now
          else s
      | none =>
          if a.type == "end_turn" then s.nextTurn now else s
    { s with actionHistory := s.actionHistory ++ [HistEntry.replayed a],
             lastModified := a.timestamp }

/-- GameStateReplay.replayToFullState (GameStateReplay.js 22-37): fresh
state (the constructor stamps the wall clock), apply the initial
configuration, then fold the log in order. -/
def replayToFullState (P : PersistentGameState) (f : PieceJSON → Piece)
    (isSim : Bool) (now : Nat) : GameState :=
  let s := GameState.new isSim now
  let s := applyInitialConfiguration s P.initial f
  P.actions.foldl (fun s a => replayAction f s a now) s

/-! ## JSON shape of PersistentGameState.toJSON (for the serialized-form
claim). A small generic JSON value type lets the theorem speak about the
top-level keys of the serialized object. -/

/-- A JSON value. -/
inductive JVal where
  | jnull
  | jstr (s : String)
  | jnum (n : Int)
  | jbool (b : Bool)
  | jarr (xs : List JVal)
  | jobj (fs : List (String × JVal))

/-- Top-level keys of a JSON object. -/
def JVal.topKeys : JVal → List String
  | .jobj fs => fs.map (fun e => e.1)
  | _ => []

/-- JSON encoding of an optional string. -/
def jOptStr (o : Option String) : JVal :=
  match o with
  | some v => .jstr v
  | none => .jnull

/-- JSON encoding of a coordinate payload string. -/
def jCoord (c : Coordinate) : JVal :=
  .jobj [("x", .jnum c.x), ("y", .jnum c.y)]

/-- JSON encoding of an optional coordinate payload string. -/
def jOptCoord (o : Option Coordinate) : JVal :=
  match o with
  | some c => jCoord c
  | none => .jnull

/-- JSON form of a PieceJSON record. -/
def PieceJSON.toJVal (p : PieceJSON) : JVal :=
  .jobj [("type", .jstr p.type), ("owner", .jstr p.owner), ("id", .jstr p.id)]

/-- JSON form of an ActionData payload. -/
def ActionData.toJVal (d : ActionData) : JVal :=
  .jobj [("at", jOptCoord d.«at»), ("from", jOptCoord d.«from»), ("to", jOptCoord d.«to»),
         ("captured", jOptStr d.captured), ("capturedType", jOptStr d.capturedType),
         ("capturedOwner", jOptStr d.capturedOwner)]

/-- JSON form of a GameAction log entry. -/
def GameAction.toJVal (a : GameAction) : JVal :=
  .jobj [("type", .jstr a.type), ("pieceId", .jstr a.pieceId),
         ("data", a.data.toJVal), ("timestamp", .jnum a.timestamp),
         ("turnNumber", .jnum a.turnNumber), ("player", .jstr a.player)]

/-- JSON form of the initial configuration object. -/
def InitialConfiguration.toJVal (i : InitialConfiguration) : JVal :=
  .jobj [("gameId", jOptStr i.gameId),
         ("players", .jarr (i.players.map (fun q => .jstr q))),
         ("playerInfo", .jarr (i.playerInfo.map (fun q =>
            .jobj [("id", .jstr q.id), ("name", .jstr q.name)]))),
         ("createdAt", .jnum i.createdAt),
         ("phase", .jstr i.phase),
         ("hostPlayerId", jOptStr i.hostPlayerId),
         ("setup", match i.setup with
            | some kvs => .jobj (kvs.map (fun e => (e.1, JVal.jstr e.2)))
            | none => .jnull),
         ("initialPieces", .jarr (i.initialPieces.map PieceJSON.toJVal))]

/-- PersistentGameState.toJSON (PersistentGameState.js 135-141): exactly
the three stored fields, verbatim. -/
def PersistentGameState.toJVal (P : PersistentGameState) : JVal :=
  .jobj [("initial", P.initial.toJVal),
         ("actions", .jarr (P.actions.map GameAction.toJVal)),
         ("lastModified", .jnum P.lastModified)]

/-! ## Reference model of GameState.copy (for the no-aliasing claim)

Aliasing is invisible to a value embedding, so GameState.copy
(GameStateReplay.js 1045-1090) is modelled once more over an explicit heap
of JavaScript objects: cells and pieces live at addresses, the collections
of the state hold addresses, and copying allocates. Arrays and Maps are
rebuilt fresh by the source copy, so they stay value-level; the objects the
claim is about (board cells, their terrain and piece occupants, and the
pieces of the stashes, the pool and the graveyard) are heap-allocated. -/

/-- The mutable fields of a piece object. -/
structure PieceObj where
  type : String
  owner : String
  id : String
deriving DecidableEq

instance : Inhabited PieceObj := ⟨⟨"", "", ""⟩⟩

/-- The mutable fields of a board cell object: coordinate key plus the
addresses of the occupant objects. -/
structure CellObj where
  coordKey : Coordinate
  terrain : Option Nat
  piece : Option Nat
deriving DecidableEq

instance : Inhabited CellObj := ⟨⟨⟨0, 0⟩, none, none⟩⟩

/-- A heap object. -/
inductive HObj where
  | cellO (c : CellObj)
  | pieceO (p : PieceObj)
deriving DecidableEq

/-- A heap: addresses are indices, allocation appends. -/
abbrev Heap := List HObj

/-- Allocate a fresh object; its address is the previous heap size. -/
def heapAlloc (h : Heap) (v : HObj) : Nat × Heap :=
  (h.length, h ++ [v])

/-- Overwrite the object at an address (mutation of one object). -/
def heapSet (h : Heap) (a : Nat) (v : HObj) : Heap :=
  h.set a v

/-- Read a cell object (default for a dangling or mistyped address;
well-formed states never hit the default). -/
def derefCell (h : Heap) (a : Nat) : CellObj :=
  match h.get? a with
  | some (.cellO c) => c
  | _ => default

/-- Read a piece object. -/
def derefPiece (h : Heap) (a : Nat) : PieceObj :=
  match h.get? a with
  | some (.pieceO p) => p
  | _ => default

/-- The reference structure of a GameState: the board maps keys to cell
addresses, the other collections hold piece addresses. The scalar fields
carry no references and are omitted. -/
structure GameStateH where
  board : List (Coordinate × Nat)
  playerStashes : List (String × List Nat)
  communityPool : List Nat
  graveyard : List Nat
deriving DecidableEq

/-- Copy a list of piece addresses: piece.copy() for each element (a fresh
object with the same fields). -/
def copyPieceAddrs (h : Heap) : List Nat → List Nat × Heap
  | [] => ([], h)
  | a :: rest =>
      let (a2, h) := heapAlloc h (.pieceO (derefPiece h a))
      let (rest2, h) := copyPieceAddrs h rest
      (a2 :: rest2, h)

/-- Copy an optional occupant address (terrain ? terrain.copy() : null). -/
def copyOptPieceAddr (h : Heap) : Option Nat → Option Nat × Heap
  | none => (none, h)
  | some a =>
      let (a2, h) := heapAlloc h (.pieceO (derefPiece h a))
      (some a2, h)

/-- Copy the board: for every entry a new Cell object holding copies of the
occupants, keyed as before (GameStateReplay.js 1051-1060). -/
def copyBoardH (h : Heap) : List (Coordinate × Nat) → List (Coordinate × Nat) × Heap
  | [] => ([], h)
  | (k, ca) :: rest =>
      let cell := derefCell h ca
      let (t2, h) := copyOptPieceAddr h cell.terrain
      let (p2, h) := copyOptPieceAddr h cell.piece
      let (ca2, h) := heapAlloc h (.cellO { coordKey := k, terrain := t2, piece := p2 })
      let (rest2, h) := copyBoardH h rest
      ((k, ca2) :: rest2, h)

/-- Copy the stashes: a fresh array of piece copies per player
(GameStateReplay.js 1074-1077). -/
def copyStashesH (h : Heap) : List (String × List Nat) → List (String × List Nat) × Heap
  | [] => ([], h)
  | (pid, stash) :: rest =>
      let (stash2, h) := copyPieceAddrs h stash
      let (rest2, h) := copyStashesH h rest
      ((pid, stash2) :: rest2, h)

/-- GameState.copy over the reference model: board, stashes, pool and
graveyard are copied in source order; every cell and piece of the result is
freshly allocated. -/
def gameStateHCopy (h : Heap) (s : GameStateH) : GameStateH × Heap :=
  let (board2, h) := copyBoardH h s.board
  let (stashes2, h) := copyStashesH h s.playerStashes
  let (pool2, h) := copyPieceAddrs h s.communityPool
  let (grave2, h) := copyPieceAddrs h s.graveyard
  ({ board := board2, playerStashes := stashes2,
     communityPool := pool2, graveyard := grave2 }, h)

/-- The addresses of one board entry: the cell object and its occupants. -/
def cellAddrs (h : Heap) (a : Nat) : List Nat :=
  a :: ((derefCell h a).terrain.toList ++ (derefCell h a).piece.toList)

/-- Every address reachable from the covered substructures of a state. -/
def reachH (h : Heap) (s : GameStateH) : List Nat :=
  (s.board.map (fun e => e.2)).flatMap (cellAddrs h)
    ++ s.playerStashes.flatMap (fun e => e.2)
    ++ s.communityPool ++ s.graveyard

/-- The dereferenced content of one board entry. -/
structure CellRead where
  coordKey : Coordinate
  terrain : Option PieceObj
  piece : Option PieceObj
deriving DecidableEq

/-- Read one board entry through the heap. -/
def readCellEntry (h : Heap) (e : Coordinate × Nat) : Coordinate × CellRead :=
  let cell := derefCell h e.2
  (e.1, { coordKey := cell.coordKey,
          terrain := cell.terrain.map (derefPiece h),
          piece := cell.piece.map (derefPiece h) })

/-- The observable content of a state: every covered substructure
dereferenced through the heap. -/
def readStateH (h : Heap) (s : GameStateH) :
    List (Coordinate × CellRead) × List (String × List PieceObj)
      × List PieceObj × List PieceObj :=
  (s.board.map (readCellEntry h),
   s.playerStashes.map (fun e => (e.1, e.2.map (derefPiece h))),
   s.communityPool.map (derefPiece h),
   s.graveyard.map (derefPiece h))

/-- Well-formedness: every reachable address is allocated. -/
def wfH (h : Heap) (s : GameStateH) : Prop :=
  ∀ a ∈ reachH h s, a < h.length

/-- The state with its lastModified timestamp scrubbed: two replays are
compared field by field modulo this one wall-clock-sensitive slot. -/
def eraseLM (s : GameState) : GameState :=
  { s with lastModified := 0 }

/-! ## Concrete data used by witnesses and counterexamples -/

/-- A piece factory that rebuilds exactly the serialized fields (the
canonical pieceFromJSON a host supplies). -/
def stdPieceFromJSON (j : PieceJSON) : Piece :=
  { type := j.type, owner := j.owner, id := j.id, coordinate := none }

/-- How many times an id occurs across the board (both layers), the
stashes, the community pool and the graveyard. -/
def GameState.countId (s : GameState) (pid : String) : Nat :=
  (s.board.map (fun e =>
      (if (e.2.terrain.map (fun q => q.id == pid)).getD false then 1 else 0)
        + (if (e.2.piece.map (fun q => q.id == pid)).getD false then 1 else 0))).sum
    + (s.playerStashes.map (fun e => e.2.countP (fun q => q.id == pid))).sum
    + s.communityPool.countP (fun q => q.id == pid)
    + s.graveyard.countP (fun q => q.id == pid)

/-- Fold of getCell reads (observations only, results discarded). -/
def GameState.readCells (s : GameState) (cs : List Coordinate) : GameState :=
  cs.foldl (fun s c => (s.getCellRun c).2) s

/-- The Builder of the connectivity scenario, at (1,1). -/
def exBuilder : Piece :=
  { type := "Builder", owner := "A", id := "b1", coordinate := some ⟨1, 1⟩ }

/-- Connectivity scenario: citadels at (0,0) and (2,0) joined only through
the Land tile at (1,0); the acting Builder stands on its own tile at (1,1),
orthogonally adjacent to the bridge. -/
def exC3State : GameState :=
  { players := ["A"],
    currentPlayerIndex := 0,
    board :=
      [(⟨0, 0⟩, { coordinate := ⟨0, 0⟩,
                  terrain := some { type := "Land", owner := "neutral", id := "l0", coordinate := some ⟨0, 0⟩ },
                  piece := some { type := "Citadel", owner := "A", id := "citA", coordinate := some ⟨0, 0⟩ } }),
       (⟨1, 0⟩, { coordinate := ⟨1, 0⟩,
                  terrain := some { type := "Land", owner := "neutral", id := "l1", coordinate := some ⟨1, 0⟩ } }),
       (⟨2, 0⟩, { coordinate := ⟨2, 0⟩,
                  terrain := some { type := "Land", owner := "neutral", id := "l2", coordinate := some ⟨2, 0⟩ },
                  piece := some { type := "Citadel", owner := "B", id := "citB", coordinate := some ⟨2, 0⟩ } }),
       (⟨1, 1⟩, { coordinate := ⟨1, 1⟩,
                  terrain := some { type := "Land", owner := "neutral", id := "l3", coordinate := some ⟨1, 1⟩ },
                  piece := some exBuilder })],
    createdAt := 0, lastModified := 0 }

/-- The Builder of the self-removal scenario, standing at (0,0). -/
def exC8Builder : Piece :=
  { type := "Builder", owner := "A", id := "b1", coordinate := some ⟨0, 0⟩ }

/-- Self-removal scenario: the Builder stands on the only Land tile. -/
def exC8State : GameState :=
  { players := ["A"],
    currentPlayerIndex := 0,
    board :=
      [(⟨0, 0⟩, { coordinate := ⟨0, 0⟩,
                  terrain := some { type := "Land", owner := "neutral", id := "l1", coordinate := some ⟨0, 0⟩ },
                  piece := some exC8Builder })],
    createdAt := 0, lastModified := 0 }

/-- A small initial configuration for the replay scenarios. -/
def exInitial : InitialConfiguration :=
  { gameId := some "g1", players := ["A"],
    playerInfo := [{ id := "A", name := "Alice" }],
    createdAt := 100, phase := "land", hostPlayerId := some "A",
    setup := none,
    initialPieces := [{ type := "Land", owner := "neutral", id := "land_1" }] }

/-- A persistent state with an empty action log. -/
def exPersistEmpty : PersistentGameState :=
  { initial := exInitial, actions := [], lastModified := 100 }

/-- An end_turn log entry (always fully processed by the replay). -/
def exEndTurn : GameAction :=
  { type := "end_turn", pieceId := "none", data := {}, timestamp := 200,
    turnNumber := 1, player := "A" }

/-- A persistent state whose log ends with a fully processed entry. -/
def exPersistOne : PersistentGameState :=
  { initial := exInitial, actions := [exEndTurn], lastModified := 200 }

/-- The off-board Land piece of the Place counterexample, owned by the
player whose turn it is not. -/
def exPlacePiece : Piece :=
  { type := "Land", owner := "B", id := "landB", coordinate := none }

/-- Two players with player A to move (so B is out of turn). -/
def exTwoPlayerState : GameState :=
  { players := ["A", "B"], currentPlayerIndex := 0,
    createdAt := 0, lastModified := 0 }

/-- Capture scenario: soldier s1 of player A at (0,0), enemy soldier e1 of
player B at (1,0), both on Land. -/
def exMover : Piece :=
  { type := "Soldier", owner := "A", id := "s1", coordinate := some ⟨0, 0⟩ }

/-- The enemy occupant of the capture scenario. -/
def exVictim : Piece :=
  { type := "Soldier", owner := "B", id := "e1", coordinate := some ⟨1, 0⟩ }

/-- The capture scenario state. -/
def exC5State : GameState :=
  { players := ["A", "B"], currentPlayerIndex := 0,
    board :=
      [(⟨0, 0⟩, { coordinate := ⟨0, 0⟩,
                  terrain := some { type := "Land", owner := "neutral", id := "la", coordinate := some ⟨0, 0⟩ },
                  piece := some exMover }),
       (⟨1, 0⟩, { coordinate := ⟨1, 0⟩,
                  terrain := some { type := "Land", owner := "neutral", id := "lb", coordinate := some ⟨1, 0⟩ },
                  piece := some exVictim })],
    createdAt := 0, lastModified := 0 }

/-- Round-trip scenario state: occupied and mixed cells, a stash, pool,
graveyard, nontrivial turn data. -/
def exC7State : GameState :=
  { players := ["A", "B"], currentPlayerIndex := 1, turnNumber := 4,
    playerInfo := [{ id := "A", name := "Alice" }],
    playerStashes :=
      [("A", [{ type := "Bird", owner := "A", id := "b7", coordinate := none }]),
       ("B", [])],
    communityPool := [{ type := "Land", owner := "neutral", id := "lp", coordinate := none }],
    graveyard := [{ type := "Soldier", owner := "B", id := "dead", coordinate := none }],
    board :=
      [(⟨0, 0⟩, { coordinate := ⟨0, 0⟩,
                  terrain := some { type := "Land", owner := "neutral", id := "l1", coordinate := some ⟨0, 0⟩ },
                  piece := some { type := "Citadel", owner := "A", id := "c1", coordinate := some ⟨0, 0⟩ } }),
       (⟨3, -2⟩, { coordinate := ⟨3, -2⟩, terrain := none, piece := none }),
       (⟨1, 0⟩, { coordinate := ⟨1, 0⟩,
                  terrain := some { type := "Land", owner := "neutral", id := "l2", coordinate := some ⟨1, 0⟩ },
                  piece := none })],
    createdAt := 11, lastModified := 22 }

/-- Heap of the no-aliasing witness: one board cell with a terrain
occupant, one stashed piece, one pooled piece. -/
def exHeap : Heap :=
  [.cellO { coordKey := ⟨0, 0⟩, terrain := some 1, piece := none },
   .pieceO { type := "Land", owner := "neutral", id := "l1" },
   .pieceO { type := "Soldier", owner := "A", id := "s1" },
   .pieceO { type := "Land", owner := "neutral", id := "l2" }]

/-- Reference structure of the no-aliasing witness. -/
def exStateH : GameStateH :=
  { board := [(⟨0, 0⟩, 0)],
    playerStashes := [("A", [2])],
    communityPool := [3],
    graveyard := [] }

/-! ## Theorems -/

/-- Setting a key that is not bound appends the binding. -/
theorem mapSet_of_not_mem {α β : Type} [BEq α] (m : List (α × β)) (k : α) (v : β)
    (h : m.any (fun e => e.1 == k) = false) :
    mapSet m k v = m ++ [(k, v)] := by
  induction m with
  | nil => rfl
  | cons e rest ih =>
      simp only [List.any_cons, Bool.or_eq_false_iff] at h
      simp [mapSet, h.1, ih h.2]

/-- Lookup after setting the same key. -/
theorem mapGet?_mapSet_self {α β : Type} [BEq α] [LawfulBEq α]
    (m : List (α × β)) (k : α) (v : β) :
    mapGet? (mapSet m k v) k = some v := by
  induction m with
  | nil => simp [mapSet, mapGet?]
  | cons e rest ih =>
      by_cases h : (e.1 == k) = true
      · simp [mapSet, h, mapGet?]
      · simp only [mapSet, h, Bool.false_eq_true, if_false]
        simpa [mapGet?, List.find?_cons, h] using ih

/-- Lookup of a different key after a set. -/
theorem mapGet?_mapSet_ne {α β : Type} [BEq α] [LawfulBEq α]
    (m : List (α × β)) (k k2 : α) (v : β) (hne : (k2 == k) = false) :
    mapGet? (mapSet m k v) k2 = mapGet? m k2 := by
  have hk : (k == k2) = false :=
    beq_eq_false_iff_ne.mpr (fun hEq => (beq_eq_false_iff_ne.mp hne) hEq.symm)
  induction m with
  | nil => simp [mapSet, mapGet?, hk]
  | cons e rest ih =>
      by_cases h : (e.1 == k) = true
      · have he2 : (e.1 == k2) = false := by rw [eq_of_beq h]; exact hk
        simp [mapSet, h, mapGet?, List.find?_cons, hk, he2]
      · simp only [mapSet, h, Bool.false_eq_true, if_false]
        by_cases h2 : (e.1 == k2) = true
        · simp [mapGet?, List.find?_cons, h2]
        · simp only [mapGet?, List.find?_cons, h2, Bool.false_eq_true, if_false] at ih ⊢
          exact ih

/-- setPiece, restated through projections of the getCellRun pair. -/
theorem setPiece_def (s : GameState) (c : Coordinate) (q : Option Piece) (now : Nat) :
    s.setPiece c q now =
      ({ (s.getCellRun c).2 with
         board := mapSet ((s.getCellRun c).2).board c (((s.getCellRun c).1).setPieceFn q) }).updateLastModified now := by
  unfold GameState.setPiece
  rfl

/-- updateLastModified only touches lastModified. -/
theorem ulm_board (s : GameState) (n : Nat) : (s.updateLastModified n).board = s.board := by
  unfold GameState.updateLastModified
  split <;> rfl

/-- updateLastModified only touches lastModified. -/
theorem ulm_graveyard (s : GameState) (n : Nat) :
    (s.updateLastModified n).graveyard = s.graveyard := by
  unfold GameState.updateLastModified
  split <;> rfl

/-- updateLastModified only touches lastModified. -/
theorem ulm_actionHistory (s : GameState) (n : Nat) :
    (s.updateLastModified n).actionHistory = s.actionHistory := by
  unfold GameState.updateLastModified
  split <;> rfl

/-- getCellRun only touches the board. -/
theorem getCellRun_snd_graveyard (s : GameState) (c : Coordinate) :
    ((s.getCellRun c).2).graveyard = s.graveyard := by
  unfold GameState.getCellRun
  split <;> rfl

/-- getCellRun only touches the board. -/
theorem getCellRun_snd_actionHistory (s : GameState) (c : Coordinate) :
    ((s.getCellRun c).2).actionHistory = s.actionHistory := by
  unfold GameState.getCellRun
  split <;> rfl

/-- A getCellRun at one coordinate does not change the binding of another. -/
theorem getCellRun_lookup_ne (s : GameState) (c c2 : Coordinate)
    (h : (c2 == c) = false) :
    mapGet? ((s.getCellRun c).2).board c2 = mapGet? s.board c2 := by
  unfold GameState.getCellRun
  cases hg : mapGet? s.board c with
  | some cell => rfl
  | none => simpa using mapGet?_mapSet_ne s.board c c2 (Cell.empty c) h

/-- setPiece only touches the board and lastModified. -/
theorem setPiece_graveyard (s : GameState) (c : Coordinate) (q : Option Piece) (now : Nat) :
    (s.setPiece c q now).graveyard = s.graveyard := by
  rw [setPiece_def, ulm_graveyard]
  exact getCellRun_snd_graveyard s c

/-- setPiece only touches the board and lastModified. -/
theorem setPiece_actionHistory (s : GameState) (c : Coordinate) (q : Option Piece) (now : Nat) :
    (s.setPiece c q now).actionHistory = s.actionHistory := by
  rw [setPiece_def, ulm_actionHistory]
  exact getCellRun_snd_actionHistory s c

/-- The occupant stored by setPiece serializes as the placed piece (the
cell points the stored piece at its own coordinate; serialization drops
coordinates). -/
theorem setPiece_pieceAt_self (s : GameState) (c : Coordinate) (q : Piece) (now : Nat) :
    ((s.setPiece c (some q) now).pieceAt? c).map Piece.toJSON = some q.toJSON := by
  rw [setPiece_def]
  unfold GameState.pieceAt?
  rw [ulm_board, mapGet?_mapSet_self]
  simp [Cell.setPieceFn, Piece.toJSON]

/-- Clearing the piece layer empties the occupant. -/
theorem setPiece_none_pieceAt_self (s : GameState) (c : Coordinate) (now : Nat) :
    (s.setPiece c none now).pieceAt? c = none := by
  rw [setPiece_def]
  unfold GameState.pieceAt?
  rw [ulm_board, mapGet?_mapSet_self]
  simp [Cell.setPieceFn]

/-- setPiece does not touch the occupant of another coordinate. -/
theorem setPiece_pieceAt_ne (s : GameState) (c c2 : Coordinate) (q : Option Piece)
    (now : Nat) (h : (c2 == c) = false) :
    (s.setPiece c q now).pieceAt? c2 = s.pieceAt? c2 := by
  rw [setPiece_def]
  unfold GameState.pieceAt?
  rw [ulm_board, mapGet?_mapSet_ne _ _ _ _ h, getCellRun_lookup_ne s c c2 h]

/-- moveToGraveyard appends the piece and touches nothing else observable
here. -/
theorem moveToGraveyard_fields (s : GameState) (p : Piece) (now : Nat) :
    (s.moveToGraveyard p now).graveyard = s.graveyard ++ [p]
      ∧ (s.moveToGraveyard p now).board = s.board
      ∧ (s.moveToGraveyard p now).actionHistory = s.actionHistory := by
  unfold GameState.moveToGraveyard GameState.updateLastModified
  refine ⟨?_, ?_, ?_⟩ <;> (split <;> rfl)

/-- addAction appends one live entry and leaves board and graveyard. -/
theorem addAction_fields (s : GameState) (pl : LivePayload) (now : Nat) :
    (s.addAction pl now).actionHistory
        = s.actionHistory ++ [HistEntry.live
            { payload := pl, timestamp := now, turnNumber := s.turnNumber,
              player := s.currentPlayer? }]
      ∧ (s.addAction pl now).board = s.board
      ∧ (s.addAction pl now).graveyard = s.graveyard := by
  unfold GameState.addAction GameState.updateLastModified
  dsimp only
  refine ⟨?_, ?_, ?_⟩ <;> (split <;> rfl)

/-- getCellRun on a bound coordinate returns the stored cell, state
untouched. -/
theorem getCellRun_found (s : GameState) (c : Coordinate) (cell : Cell)
    (h : mapGet? s.board c = some cell) : s.getCellRun c = (cell, s) := by
  unfold GameState.getCellRun
  rw [h]

/-- pieceAt? only reads the board. -/
theorem pieceAt?_congr_board (s1 s2 : GameState) (c : Coordinate)
    (h : s1.board = s2.board) : s1.pieceAt? c = s2.pieceAt? c := by
  unfold GameState.pieceAt?
  rw [h]

/-- movePerform on an on-board piece, restated through projections. -/
theorem movePerform_def (p : Piece) (target : Coordinate) (s : GameState)
    (now : Nat) (fromC : Coordinate) (h : p.coordinate = some fromC) :
    movePerform p target s now =
      Except.ok
        ((((match ((s.getCellRun target).1).piece with
            | some tp =>
                if tp.owner != p.owner then
                  ((s.getCellRun target).2).moveToGraveyard tp now
                else (s.getCellRun target).2
            | none => (s.getCellRun target).2).setPiece fromC none now).setPiece
              target (some p) now).addAction
          { type := "move", pieceId := p.id,
            «from» := some fromC, «to» := some target,
            captured := ((s.getCellRun target).1).piece.map (fun (tp : Piece) => tp.id),
            capturedType := ((s.getCellRun target).1).piece.map (fun (tp : Piece) => tp.type),
            capturedOwner := ((s.getCellRun target).1).piece.map (fun (tp : Piece) => tp.owner) } now) := by
  unfold movePerform
  rw [h]

/-- The first binding is absent exactly when no key matches. -/
theorem mapGet?_eq_none_iff {α β : Type} [BEq α] (m : List (α × β)) (k : α) :
    mapGet? m k = none ↔ m.any (fun e => e.1 == k) = false := by
  simp [mapGet?, List.find?_eq_none, List.any_eq_true]

/-- A getCell read never changes the serialized state: on a miss it only
inserts a cell with no occupants, which toJSON skips. -/
theorem getCellRun_toJSON (s : GameState) (c : Coordinate) :
    ((s.getCellRun c).2).toJSON = s.toJSON := by
  unfold GameState.getCellRun
  cases h : mapGet? s.board c with
  | some cell => rfl
  | none =>
      have hany : s.board.any (fun e => e.1 == c) = false :=
        (mapGet?_eq_none_iff s.board c).mp h
      simp only [GameState.toJSON, mapSet_of_not_mem s.board c _ hany]
      simp [boardToJSONList, List.filterMap_append, Cell.empty]

/-- Claim C10: GameState.getCell is total and serialization-stable: an
unoccupied coordinate yields the fresh empty cell (terrain and piece both
absent), and any number of getCell reads — each of which inserts an empty
cell on a miss — leaves toJSON unchanged, because serialization only emits
cells with an occupant. -/
theorem getCell_total_and_serialization_stable (s : GameState) (c : Coordinate)
    (cs : List Coordinate) :
    (mapGet? s.board c = none → (s.getCellRun c).1 = Cell.empty c)
      ∧ (s.readCells cs).toJSON = s.toJSON := by
  constructor
  · intro h
    unfold GameState.getCellRun
    rw [h]
  · induction cs generalizing s with
    | nil => rfl
    | cons c0 rest ih =>
        show ((((s.getCellRun c0).2)).readCells rest).toJSON = s.toJSON
        rw [ih ((s.getCellRun c0).2), getCellRun_toJSON]

/-- Witness for the getCell claim at a concrete state and read list. -/
theorem getCell_total_witness :
    mapGet? exC7State.board ⟨5, 5⟩ = none
      ∧ ((mapGet? exC7State.board ⟨5, 5⟩ = none →
            (exC7State.getCellRun ⟨5, 5⟩).1 = Cell.empty ⟨5, 5⟩)
          ∧ (exC7State.readCells [⟨5, 5⟩, ⟨9, 9⟩, ⟨0, 0⟩]).toJSON = exC7State.toJSON) :=
  ⟨by decide,
   getCell_total_and_serialization_stable exC7State ⟨5, 5⟩ [⟨5, 5⟩, ⟨9, 9⟩, ⟨0, 0⟩]⟩

/-- checkAction leaves the live state untouched on every path: the only
call the source makes on the live state is the initial non-mutating copy. -/
theorem checkActionRun_snd (s : GameState) (p : Piece) (k : ActKind)
    (target : Coordinate) (now : Nat) :
    (checkActionRun s p k target now).2 = s := by
  simp only [checkActionRun]
  repeat' split
  all_goals rfl

/-- Claim C2: if checkAction raises a RuleViolation, the live state
serializes exactly as before the call. -/
theorem checkAction_nonmutating_on_rejection (s : GameState) (p : Piece)
    (k : ActKind) (target : Coordinate) (now : Nat) (msg : String)
    (h : (checkActionRun s p k target now).1 = Except.error (PerformErr.ruleViolation msg)) :
    ((checkActionRun s p k target now).2).toJSON = s.toJSON := by
  rw [checkActionRun_snd]

/-- Witness for the non-mutation claim: a rejected action (acting piece not
on the board) at a concrete state. -/
theorem checkAction_nonmutating_witness :
    (checkActionRun exTwoPlayerState exPlacePiece ActKind.place ⟨0, 0⟩ 3).1
        = Except.error (PerformErr.ruleViolation ("Piece not found on the board"))
      ∧ ((checkActionRun exTwoPlayerState exPlacePiece ActKind.place ⟨0, 0⟩ 3).2).toJSON
        = exTwoPlayerState.toJSON :=
  ⟨by decide,
   checkAction_nonmutating_on_rejection exTwoPlayerState exPlacePiece ActKind.place ⟨0, 0⟩ 3
     ("Piece not found on the board") (by decide)⟩

/-- Counterexample to claim C4 as stated: Place.check accepts an action
whose piece is off the board while it is not the owner's turn (the base
validation is commented out in Place.check). -/
theorem place_check_skips_base_validation :
    exPlacePiece.coordinate = none
      ∧ exTwoPlayerState.currentPlayer? ≠ some exPlacePiece.owner
      ∧ checkAct ActKind.place exPlacePiece ⟨0, 0⟩ exTwoPlayerState exTwoPlayerState
          = Except.ok () := by
  refine ⟨rfl, by decide, by decide⟩

/-- Claim C4 as amended: every embedded Action subtype outside the Place
family rejects with a RuleViolation whenever the acting piece is off the
board or it is not the owning player's turn. -/
theorem nonPlace_actions_validate_onboard_and_turn (k : ActKind) (p : Piece)
    (s : GameState) (target : Coordinate)
    (hk : k.isPlaceFamily = false)
    (h : p.coordinate = none ∨ s.currentPlayer? ≠ some p.owner) :
    ∃ m, checkAct k p target s s = Except.error m := by
  have hbase : ∃ m, actionBaseCheck p s = Except.error m := by
    rcases h with h | h
    · refine ⟨"Piece must be placed on the board to perform actions", ?_⟩
      simp [actionBaseCheck, h]
    · rcases hc : p.coordinate with _ | c
      · refine ⟨"Piece must be placed on the board to perform actions", ?_⟩
        simp [actionBaseCheck, hc]
      · have hne : (s.currentPlayer? != some p.owner) = true := by
          simpa [bne] using h
        refine ⟨"It is not this players turn", ?_⟩
        simp [actionBaseCheck, hc, hne]
  rcases hbase with ⟨m, hm⟩
  cases k with
  | move waterOk captureOk =>
      exact ⟨m, by simp [checkAct, moveCheck, hm, Bind.bind, Except.bind]⟩
  | builderMove =>
      rcases hc : p.coordinate with _ | c
      · exact ⟨"Builder must be on the board to move",
          by simp [checkAct, builderMoveCheck, hc]⟩
      · by_cases hadj : c.isOrthogonallyAdjacentTo target = true
        · exact ⟨m, by simp [checkAct, builderMoveCheck, hc, hadj, moveCheck, hm,
            Bind.bind, Except.bind]⟩
        · exact ⟨"Builder can only move to orthogonally adjacent squares",
            by simp [checkAct, builderMoveCheck, hc, hadj]⟩
  | place => simp [ActKind.isPlaceFamily] at hk
  | builderMoveTerrain src =>
      exact ⟨m, by simp [checkAct, builderMoveTerrainCheck, hm, Bind.bind, Except.bind]⟩
  | builderRemoveTerrain =>
      exact ⟨m, by simp [checkAct, builderRemoveTerrainCheck, hm, Bind.bind, Except.bind]⟩
  | builderPlaceTerrain =>
      exact ⟨m, by simp [checkAct, builderPlaceTerrainCheck, hm, Bind.bind, Except.bind]⟩

/-- Witness for the amended base-validation claim at a concrete off-board,
out-of-turn input. -/
theorem nonPlace_actions_validate_witness :
    ActKind.isPlaceFamily ActKind.builderRemoveTerrain = false
      ∧ (∃ m, checkAct ActKind.builderRemoveTerrain exPlacePiece ⟨0, 0⟩
          exTwoPlayerState exTwoPlayerState = Except.error m) :=
  ⟨by decide,
   nonPlace_actions_validate_onboard_and_turn ActKind.builderRemoveTerrain exPlacePiece
     exTwoPlayerState ⟨0, 0⟩ (by decide) (Or.inl (by decide))⟩

/-- Claim C9: the serialized form of a PersistentGameState has exactly the
top-level keys initial, actions and lastModified — no board, stashes, or
any other derived field. -/
theorem persistent_toJSON_shape (P : PersistentGameState) :
    P.toJVal.topKeys = ["initial", "actions", "lastModified"]
      ∧ ("board" ∉ P.toJVal.topKeys ∧ "playerStashes" ∉ P.toJVal.topKeys
          ∧ "communityPool" ∉ P.toJVal.topKeys ∧ "graveyard" ∉ P.toJVal.topKeys
          ∧ "currentPlayerIndex" ∉ P.toJVal.topKeys)
      ∧ P.toJVal = JVal.jobj
          [("initial", P.initial.toJVal),
           ("actions", JVal.jarr (P.actions.map GameAction.toJVal)),
           ("lastModified", JVal.jnum P.lastModified)] := by
  refine ⟨rfl, ?_, rfl⟩
  simp [PersistentGameState.toJVal, JVal.topKeys]

/-- Claim C3 fails on the code: the bridge removal passes checkAction, the
committed action severs the citadels, and no connectivity violation is ever
raised — validateCitadelConnectivity is reachable but no validation path
calls it. -/
theorem bridge_removal_commits_despite_disconnection :
    validateCitadelConnectivity exC3State = true
      ∧ (checkActionRun exC3State exBuilder ActKind.builderRemoveTerrain ⟨1, 0⟩ 5).1
          = Except.ok ()
      ∧ (executeActionRun exC3State exBuilder ActKind.builderRemoveTerrain ⟨1, 0⟩ 5).map
          validateCitadelConnectivity = Except.ok false := by
  refine ⟨by decide, by decide, by decide⟩

/-- Claim C8 fails on the code: when the Builder removes its own tile, the
tile returns to the pool and the cell empties, but the Builder is sent to
the graveyard twice — once by removeCellContents clearing the cell, once by
the explicit moveToGraveyard — so its id occurs twice afterwards. -/
theorem builder_self_removal_duplicates_graveyard :
    exC8State.countId ("b1") = 1
      ∧ (performAct ActKind.builderRemoveTerrain exC8Builder ⟨0, 0⟩ exC8State 7).map
          (fun s => (s.countId ("b1"), s.graveyard.map (fun q => q.id),
                     s.communityPool.map (fun q => q.id),
                     s.pieceAt? ⟨0, 0⟩, s.terrainAt? ⟨0, 0⟩))
        = Except.ok (2, ["b1", "b1"], ["l1"], none, none) := by
  refine ⟨by decide, by decide⟩

/-- Claim C5: if a move of piece p onto a cell occupied by enemy piece B
passes validation, performing it sends B to the graveyard, p occupies the
target (its former cell now empty), and exactly one move entry is appended
recording B as captured; and moving onto an enemy occupant is only ever
permitted when the move is capture-capable. -/
theorem move_capture_postcondition (s : GameState) (p B : Piece)
    (target fromC : Coordinate) (waterOk captureOk : Bool) (now : Nat)
    (hfrom : p.coordinate = some fromC)
    (hok : moveCheck waterOk captureOk p target s = Except.ok ())
    (hB : s.pieceAt? target = some B)
    (henemy : B.owner ≠ p.owner) :
    (∃ s2, movePerform p target s now = Except.ok s2
      ∧ s2.graveyard = s.graveyard ++ [B]
      ∧ (s2.pieceAt? target).map Piece.toJSON = some p.toJSON
      ∧ s2.pieceAt? fromC = none
      ∧ ∃ e : LiveEntry, s2.actionHistory = s.actionHistory ++ [HistEntry.live e]
          ∧ e.payload.type = "move" ∧ e.payload.captured = some B.id)
    ∧ (∀ (s3 : GameState) (p3 B3 : Piece) (t3 : Coordinate) (w3 : Bool),
        s3.pieceAt? t3 = some B3 → B3.owner ≠ p3.owner →
        moveCheck w3 false p3 t3 s3 ≠ Except.ok ()) := by
  constructor
  · -- decompose the target cell from the occupancy hypothesis
    have hmg : ∃ cell0, mapGet? s.board target = some cell0 ∧ cell0.piece = some B := by
      unfold GameState.pieceAt? at hB
      cases hmg0 : mapGet? s.board target with
      | none => rw [hmg0] at hB; simp at hB
      | some cell0 => rw [hmg0] at hB; simp at hB; exact ⟨cell0, rfl, hB⟩
    rcases hmg with ⟨cell0, hmg, hcp⟩
    have hget : s.getCellRun target = (cell0, s) := getCellRun_found s target cell0 hmg
    -- the validated move cannot target its own square
    have hbase : actionBaseCheck p s = Except.ok () := by
      cases hb : actionBaseCheck p s with
      | ok u => cases u; rfl
      | error e =>
          unfold moveCheck at hok
          rw [hb] at hok
          simp [Bind.bind, Except.bind] at hok
    have hok2 := hok
    unfold moveCheck at hok2
    rw [hbase] at hok2
    simp only [Bind.bind, Except.bind] at hok2
    have hne : (fromC == target) = false := by
      refine beq_eq_false_iff_ne.mpr ?_
      intro hEq
      rw [hfrom, hEq] at hok2
      simp [Coordinate.equals] at hok2
    have hneT : (target == fromC) = false := by
      refine beq_eq_false_iff_ne.mpr ?_
      intro hEq
      rw [hEq] at hne
      simp at hne
    have hbne : (B.owner != p.owner) = true := by
      simp [bne, beq_eq_false_iff_ne.mpr henemy]
    rw [movePerform_def p target s now fromC hfrom, hget]
    dsimp only
    rw [hcp]
    dsimp only
    rw [if_pos hbne]
    refine ⟨_, rfl, ?_, ?_, ?_, ?_⟩
    · rw [(addAction_fields _ _ _).2.2, setPiece_graveyard, setPiece_graveyard,
        (moveToGraveyard_fields _ _ _).1]
    · rw [pieceAt?_congr_board _ _ _ (addAction_fields _ _ _).2.1]
      exact setPiece_pieceAt_self _ target p now
    · rw [pieceAt?_congr_board _ _ _ (addAction_fields _ _ _).2.1,
        setPiece_pieceAt_ne _ _ _ _ _ hne]
      exact setPiece_none_pieceAt_self _ fromC now
    · exact ⟨_,
        by
          rw [(addAction_fields _ _ _).1, setPiece_actionHistory, setPiece_actionHistory,
            (moveToGraveyard_fields _ _ _).2.2],
        rfl, rfl⟩
  · intro s3 p3 B3 t3 w3 hB3 hen3 hok3
    have hbase3 : actionBaseCheck p3 s3 = Except.ok () := by
      cases hb : actionBaseCheck p3 s3 with
      | ok u => cases u; rfl
      | error e =>
          unfold moveCheck at hok3
          rw [hb] at hok3
          simp [Bind.bind, Except.bind] at hok3
    unfold moveCheck at hok3
    rw [hbase3] at hok3
    simp only [Bind.bind, Except.bind] at hok3
    rw [hB3] at hok3
    have hbne3 : (B3.owner == p3.owner) = false := beq_eq_false_iff_ne.mpr hen3
    simp only [hbne3, Bool.false_eq_true, if_false, Bool.not_false] at hok3
    split at hok3
    · exact absurd hok3 (by simp)
    · split at hok3 <;> exact absurd hok3 (by simp)

/-- Witness for the capture postcondition at the concrete two-soldier
scenario. -/
theorem move_capture_witness :
    (∃ s2, movePerform exMover ⟨1, 0⟩ exC5State 9 = Except.ok s2
      ∧ s2.graveyard = exC5State.graveyard ++ [exVictim]
      ∧ (s2.pieceAt? ⟨1, 0⟩).map Piece.toJSON = some exMover.toJSON
      ∧ s2.pieceAt? ⟨0, 0⟩ = none
      ∧ ∃ e : LiveEntry, s2.actionHistory = exC5State.actionHistory ++ [HistEntry.live e]
          ∧ e.payload.type = "move" ∧ e.payload.captured = some exVictim.id)
    ∧ (∀ (s3 : GameState) (p3 B3 : Piece) (t3 : Coordinate) (w3 : Bool),
        s3.pieceAt? t3 = some B3 → B3.owner ≠ p3.owner →
        moveCheck w3 false p3 t3 s3 ≠ Except.ok ()) :=
  move_capture_postcondition exC5State exMover exVictim ⟨1, 0⟩ ⟨0, 0⟩ false true 9
    (by decide) (by decide) (by decide) (by decide)

/-- Folding Map.set over a fresh map with pairwise-distinct keys rebuilds
the list itself. -/
theorem foldl_mapSet_eq {α β : Type} [BEq α] [LawfulBEq α]
    (ps : List (α × β)) (acc : List (α × β))
    (hnd : (ps.map (fun e => e.1)).Nodup)
    (hfresh : ∀ e ∈ ps, acc.any (fun e2 => e2.1 == e.1) = false) :
    ps.foldl (fun b e => mapSet b e.1 e.2) acc = acc ++ ps := by
  induction ps generalizing acc with
  | nil => simp
  | cons e rest ih =>
      simp only [List.foldl_cons]
      rw [mapSet_of_not_mem _ _ _ (hfresh e (by simp))]
      have hnd2 : (rest.map (fun e => e.1)).Nodup := by
        simpa using hnd.of_cons
      have hnotin : e.1 ∉ rest.map (fun e2 => e2.1) := by
        simp only [List.map_cons, List.nodup_cons] at hnd
        exact hnd.1
      rw [ih (acc ++ [e]) hnd2 ?_]
      · simp
      · intro e2 he2
        simp only [List.any_append, Bool.or_eq_false_iff]
        refine ⟨hfresh e2 (by simp [he2]), ?_⟩
        simp only [List.any_cons, List.any_nil, Bool.or_false]
        refine beq_eq_false_iff_ne.mpr ?_
        intro hEq
        exact hnotin (by
          rw [hEq]
          exact List.mem_map_of_mem (fun e2 => e2.1) he2)

/-- With well-placed keys, the keys of the serialized board form a sublist
of the board keys. -/
theorem boardToJSONList_keys_sublist (bl : List (Coordinate × Cell))
    (hkeys : ∀ e ∈ bl, e.1 = e.2.coordinate) :
    ((boardToJSONList bl).map (fun cj => cj.coordinate)).Sublist
      (bl.map (fun e => e.1)) := by
  induction bl with
  | nil => simp [boardToJSONList]
  | cons e rest ih =>
      have hk : e.1 = e.2.coordinate := hkeys e (by simp)
      have ih2 := ih (fun e2 he2 => hkeys e2 (by simp [he2]))
      by_cases hocc : (e.2.terrain.isSome || e.2.piece.isSome) = true
      · simp only [boardToJSONList, List.filterMap_cons, hocc, if_true, List.map_cons]
        have : (Cell.toJSON e.2).coordinate = e.1 := by rw [hk]; rfl
        rw [this]
        exact List.Sublist.cons₂ e.1 (by simpa [boardToJSONList] using ih2)
      · have hocc2 : (e.2.terrain.isSome || e.2.piece.isSome) = false := by
          simpa using hocc
        simp only [boardToJSONList, List.filterMap_cons, hocc2, Bool.false_eq_true,
          if_false, List.map_cons]
        exact List.Sublist.cons e.1 (by simpa [boardToJSONList] using ih2)

/-- Lookup misses the rebuilt board whenever the key is absent from the
source board. -/
theorem roundtrip_lookup_none (f : PieceJSON → Piece)
    (bl : List (Coordinate × Cell)) (hkeys : ∀ e ∈ bl, e.1 = e.2.coordinate)
    (c : Coordinate) (habs : ∀ e ∈ bl, (e.1 == c) = false) :
    mapGet? ((boardToJSONList bl).map (fun cj => (cj.coordinate, cellFromJSON f cj))) c
      = none := by
  induction bl with
  | nil => rfl
  | cons e rest ih =>
      have hk : e.1 = e.2.coordinate := hkeys e (by simp)
      have ih2 := ih (fun e2 he2 => hkeys e2 (by simp [he2]))
        (fun e2 he2 => habs e2 (by simp [he2]))
      by_cases hocc : (e.2.terrain.isSome || e.2.piece.isSome) = true
      · simp only [boardToJSONList, List.filterMap_cons, hocc, if_true, List.map_cons]
        have hco : ((Cell.toJSON e.2).coordinate == c) = false := by
          have : (Cell.toJSON e.2).coordinate = e.1 := by rw [hk]; rfl
          rw [this]
          exact habs e (by simp)
        simp only [mapGet?, List.find?_cons, hco]
        simpa [boardToJSONList, mapGet?] using ih2
      · have hocc2 : (e.2.terrain.isSome || e.2.piece.isSome) = false := by
          simpa using hocc
        simp only [boardToJSONList, List.filterMap_cons, hocc2, Bool.false_eq_true,
          if_false]
        simpa [boardToJSONList] using ih2

/-- Occupancy observation survives the round trip, coordinate by
coordinate, up to piece serialization. -/
theorem roundtrip_board_lookup (f : PieceJSON → Piece) (hf : ∀ j, (f j).toJSON = j)
    (bl : List (Coordinate × Cell)) (hkeys : ∀ e ∈ bl, e.1 = e.2.coordinate)
    (hnd : (bl.map (fun e => e.1)).Nodup) (c : Coordinate) :
    (((mapGet? ((boardToJSONList bl).map (fun cj => (cj.coordinate, cellFromJSON f cj))) c).bind
        (fun cell => cell.terrain)).map Piece.toJSON
      = ((mapGet? bl c).bind (fun cell => cell.terrain)).map Piece.toJSON)
    ∧ (((mapGet? ((boardToJSONList bl).map (fun cj => (cj.coordinate, cellFromJSON f cj))) c).bind
        (fun cell => cell.piece)).map Piece.toJSON
      = ((mapGet? bl c).bind (fun cell => cell.piece)).map Piece.toJSON) := by
  induction bl with
  | nil => exact ⟨rfl, rfl⟩
  | cons e rest ih =>
      have hk : e.1 = e.2.coordinate := hkeys e (by simp)
      have hkeys2 : ∀ e2 ∈ rest, e2.1 = e2.2.coordinate :=
        fun e2 he2 => hkeys e2 (by simp [he2])
      have hnd2 : (rest.map (fun e => e.1)).Nodup := by simpa using hnd.of_cons
      have hnotin : e.1 ∉ rest.map (fun e2 => e2.1) := by
        simp only [List.map_cons, List.nodup_cons] at hnd
        exact hnd.1
      have ih2 := ih hkeys2 hnd2
      have hcoord : (Cell.toJSON e.2).coordinate = e.1 := by rw [hk]; rfl
      by_cases hc : (e.1 == c) = true
      · have hcc : e.1 = c := eq_of_beq hc
        have habs : ∀ e2 ∈ rest, (e2.1 == c) = false := by
          intro e2 he2
          refine beq_eq_false_iff_ne.mpr ?_
          intro hEq
          apply hnotin
          rw [hcc, ← hEq]
          exact List.mem_map_of_mem (fun e2 => e2.1) he2
        by_cases hocc : (e.2.terrain.isSome || e.2.piece.isSome) = true
        · simp only [boardToJSONList, List.filterMap_cons, hocc, if_true, List.map_cons]
          have hco : ((Cell.toJSON e.2).coordinate == c) = true := by rw [hcoord]; exact hc
          simp only [mapGet?, List.find?_cons, hco, hc]
          refine ⟨?_, ?_⟩
          · simp only [cellFromJSON, Cell.toJSON, Option.map_map]
            cases h2 : e.2.terrain <;> simp [Function.comp, hf, h2]
          · simp only [cellFromJSON, Cell.toJSON, Option.map_map]
            cases h2 : e.2.piece <;> simp [Function.comp, hf, h2]
        · have hocc2 : (e.2.terrain.isSome || e.2.piece.isSome) = false := by
            simpa using hocc
          have ht : e.2.terrain = none := by
            cases h1 : e.2.terrain <;> cases h2 : e.2.piece <;>
              simp [h1, h2] at hocc2 ⊢
          have hp : e.2.piece = none := by
            cases h1 : e.2.terrain <;> cases h2 : e.2.piece <;>
              simp [h1, h2] at hocc2 ⊢
          simp only [boardToJSONList, List.filterMap_cons, hocc2, Bool.false_eq_true,
            if_false]
          have hrest := roundtrip_lookup_none f rest hkeys2 c habs
          simp only [boardToJSONList] at hrest
          rw [hrest]
          simp only [mapGet?, List.find?_cons, hc]
          simp [ht, hp]
      · have hcf : (e.1 == c) = false := by
          cases h0 : (e.1 == c)
          · rfl
          · exact absurd h0 hc
        have hco : ((Cell.toJSON e.2).coordinate == c) = false := by
          rw [hcoord]; exact hcf
        by_cases hocc : (e.2.terrain.isSome || e.2.piece.isSome) = true
        · simp only [boardToJSONList, List.filterMap_cons, hocc, if_true, List.map_cons]
          simp only [mapGet?, List.find?_cons, hco, hcf]
          exact ⟨by simpa [boardToJSONList, mapGet?] using ih2.1,
                 by simpa [boardToJSONList, mapGet?] using ih2.2⟩
        · have hocc2 : (e.2.terrain.isSome || e.2.piece.isSome) = false := by
            simpa using hocc
          simp only [boardToJSONList, List.filterMap_cons, hocc2, Bool.false_eq_true,
            if_false]
          simp only [mapGet?, List.find?_cons, hcf]
          exact ⟨by simpa [boardToJSONList, mapGet?] using ih2.1,
                 by simpa [boardToJSONList, mapGet?] using ih2.2⟩

/-- The fromJSON board fold, re-expressed over key-value pairs. -/
theorem foldl_mapSet_pairize (f : PieceJSON → Piece) (l : List CellJSON)
    (acc : List (Coordinate × Cell)) :
    l.foldl (fun b cj => mapSet b cj.coordinate (cellFromJSON f cj)) acc
      = (l.map (fun cj => (cj.coordinate, cellFromJSON f cj))).foldl
          (fun b e => mapSet b e.1 e.2) acc := by
  induction l generalizing acc with
  | nil => rfl
  | cons cj rest ih =>
      simp only [List.foldl_cons, List.map_cons]
      exact ih _

/-- Claim C7: round trip. Given a pieceFromJSON that inverts Piece.toJSON,
rebuilding a state from its serialization reproduces the board occupancy at
every coordinate, the per-player stashes, the pool, the graveyard, and the
turn pointer (all compared up to piece serialization, which is exactly what
the JSON carries). The two hypotheses on the board are the Map invariants:
unique keys, each the coordinate of its cell. -/
theorem gameState_roundtrip (s : GameState) (f : PieceJSON → Piece)
    (hf : ∀ j, (f j).toJSON = j)
    (hkeys : ∀ e ∈ s.board, e.1 = e.2.coordinate)
    (hnodup : (s.board.map (fun e => e.1)).Nodup) :
    (∀ c, (((GameState.fromJSON s.toJSON f).terrainAt? c).map Piece.toJSON
            = (s.terrainAt? c).map Piece.toJSON)
        ∧ (((GameState.fromJSON s.toJSON f).pieceAt? c).map Piece.toJSON
            = (s.pieceAt? c).map Piece.toJSON))
      ∧ (GameState.fromJSON s.toJSON f).playerStashes.map
            (fun e => (e.1, e.2.map Piece.toJSON))
          = s.playerStashes.map (fun e => (e.1, e.2.map Piece.toJSON))
      ∧ (GameState.fromJSON s.toJSON f).communityPool.map Piece.toJSON
          = s.communityPool.map Piece.toJSON
      ∧ (GameState.fromJSON s.toJSON f).graveyard.map Piece.toJSON
          = s.graveyard.map Piece.toJSON
      ∧ (GameState.fromJSON s.toJSON f).currentPlayerIndex = s.currentPlayerIndex
      ∧ (GameState.fromJSON s.toJSON f).turnNumber = s.turnNumber := by
  have hndkeys : (((boardToJSONList s.board).map
      (fun cj => (cj.coordinate, cellFromJSON f cj))).map (fun e => e.1)).Nodup := by
    simp only [List.map_map]
    have hsub := boardToJSONList_keys_sublist s.board hkeys
    exact List.Sublist.nodup (by simpa using hsub) hnodup
  have hboard : (GameState.fromJSON s.toJSON f).board
      = (boardToJSONList s.board).map (fun cj => (cj.coordinate, cellFromJSON f cj)) := by
    show (boardToJSONList s.board).foldl
        (fun b cj => mapSet b cj.coordinate (cellFromJSON f cj)) [] = _
    rw [foldl_mapSet_pairize, foldl_mapSet_eq _ [] hndkeys (by intro e he; rfl)]
    simp
  refine ⟨?_, ?_, ?_, ?_, rfl, rfl⟩
  · intro c
    have hl := roundtrip_board_lookup f hf s.board hkeys hnodup c
    unfold GameState.terrainAt? GameState.pieceAt?
    rw [hboard]
    exact ⟨hl.1, hl.2⟩
  · show (s.toJSON.playerStashes.map (fun e => (e.playerId, e.stash.map f))).map
        (fun e => (e.1, e.2.map Piece.toJSON)) = _
    simp only [GameState.toJSON, List.map_map]
    simp [Function.comp, List.map_map, hf]
  · show (s.toJSON.communityPool.map f).map Piece.toJSON = _
    simp only [GameState.toJSON, List.map_map]
    simp [Function.comp, hf]
  · show (s.toJSON.graveyard.map f).map Piece.toJSON = _
    simp only [GameState.toJSON, List.map_map]
    simp [Function.comp, hf]

/-- Witness for the round trip at a concrete mixed state and the standard
piece factory. -/
theorem gameState_roundtrip_witness :
    (∀ c, (((GameState.fromJSON exC7State.toJSON stdPieceFromJSON).terrainAt? c).map Piece.toJSON
            = (exC7State.terrainAt? c).map Piece.toJSON)
        ∧ (((GameState.fromJSON exC7State.toJSON stdPieceFromJSON).pieceAt? c).map Piece.toJSON
            = (exC7State.pieceAt? c).map Piece.toJSON))
      ∧ (GameState.fromJSON exC7State.toJSON stdPieceFromJSON).playerStashes.map
            (fun e => (e.1, e.2.map Piece.toJSON))
          = exC7State.playerStashes.map (fun e => (e.1, e.2.map Piece.toJSON))
      ∧ (GameState.fromJSON exC7State.toJSON stdPieceFromJSON).communityPool.map Piece.toJSON
          = exC7State.communityPool.map Piece.toJSON
      ∧ (GameState.fromJSON exC7State.toJSON stdPieceFromJSON).graveyard.map Piece.toJSON
          = exC7State.graveyard.map Piece.toJSON
      ∧ (GameState.fromJSON exC7State.toJSON stdPieceFromJSON).currentPlayerIndex
          = exC7State.currentPlayerIndex
      ∧ (GameState.fromJSON exC7State.toJSON stdPieceFromJSON).turnNumber
          = exC7State.turnNumber :=
  gameState_roundtrip exC7State stdPieceFromJSON (fun j => rfl) (by decide) (by decide)

/-- get? is unchanged by a set at a different index. -/
theorem heap_get?_set_ne (l : Heap) (i j : Nat) (v : HObj) (hij : i ≠ j) :
    (heapSet l i v).get? j = l.get? j := by
  unfold heapSet
  simp [List.get?_eq_getElem?, List.getElem?_set_ne hij]

/-- get? below the original length is unchanged by an append. -/
theorem heap_get?_append (l t : Heap) (a : Nat) (ha : a < l.length) :
    (l ++ t).get? a = l.get? a :=
  List.get?_append ha

/-- Cell reads agree on heaps that agree below n. -/
theorem derefCell_congr (h1 h2 : Heap) (n a : Nat)
    (hag : ∀ a2, a2 < n → h2.get? a2 = h1.get? a2) (ha : a < n) :
    derefCell h2 a = derefCell h1 a := by
  unfold derefCell
  rw [hag a ha]

/-- Piece reads agree on heaps that agree below n. -/
theorem derefPiece_congr (h1 h2 : Heap) (n a : Nat)
    (hag : ∀ a2, a2 < n → h2.get? a2 = h1.get? a2) (ha : a < n) :
    derefPiece h2 a = derefPiece h1 a := by
  unfold derefPiece
  rw [hag a ha]

/-- cellAddrs agrees on heaps that agree below n. -/
theorem cellAddrs_congr (h1 h2 : Heap) (n a : Nat)
    (hag : ∀ a2, a2 < n → h2.get? a2 = h1.get? a2) (ha : a < n) :
    cellAddrs h2 a = cellAddrs h1 a := by
  unfold cellAddrs
  rw [derefCell_congr h1 h2 n a hag ha]

/-- The reachable-address list is itself a function of the heap only below
the well-formedness bound. -/
theorem reachH_congr (h1 h2 : Heap) (n : Nat) (s : GameStateH)
    (hag : ∀ a2, a2 < n → h2.get? a2 = h1.get? a2)
    (hwf : ∀ a ∈ reachH h1 s, a < n) :
    reachH h2 s = reachH h1 s := by
  unfold reachH at hwf ⊢
  have hb : (s.board.map (fun e => e.2)).flatMap (cellAddrs h2)
      = (s.board.map (fun e => e.2)).flatMap (cellAddrs h1) := by
    have : ∀ a ∈ s.board.map (fun e => e.2), cellAddrs h2 a = cellAddrs h1 a := by
      intro a hamem
      have haR : a ∈ (s.board.map (fun e => e.2)).flatMap (cellAddrs h1) :=
        List.mem_flatMap_of_mem hamem (by simp [cellAddrs])
      exact cellAddrs_congr h1 h2 n a hag (hwf a (by simp [haR]))
    simp only [List.flatMap]
    rw [List.map_congr_left this]
  rw [hb]

/-- The readout of a state agrees on heaps that agree below the
well-formedness bound. -/
theorem readStateH_congr (h1 h2 : Heap) (n : Nat) (s : GameStateH)
    (hag : ∀ a2, a2 < n → h2.get? a2 = h1.get? a2)
    (hwf : ∀ a ∈ reachH h1 s, a < n) :
    readStateH h2 s = readStateH h1 s := by
  unfold readStateH
  have hwfb : ∀ e ∈ s.board, ∀ x ∈ cellAddrs h1 e.2, x < n := by
    intro e he x hx
    refine hwf x ?_
    unfold reachH
    refine List.mem_append.mpr (Or.inl (List.mem_append.mpr (Or.inl
      (List.mem_append.mpr (Or.inl ?_)))))
    exact List.mem_flatMap_of_mem (List.mem_map_of_mem (fun e => e.2) he) hx
  have hb : s.board.map (readCellEntry h2) = s.board.map (readCellEntry h1) := by
    refine List.map_congr_left ?_
    intro e he
    have hc : e.2 < n := hwfb e he e.2 (by simp [cellAddrs])
    unfold readCellEntry
    rw [derefCell_congr h1 h2 n e.2 hag hc]
    dsimp only
    have ht : (derefCell h1 e.2).terrain.map (derefPiece h2)
        = (derefCell h1 e.2).terrain.map (derefPiece h1) := by
      cases hterm : (derefCell h1 e.2).terrain with
      | none => rfl
      | some ta =>
          have : ta < n := hwfb e he ta (by simp [cellAddrs, hterm])
          simp [derefPiece_congr h1 h2 n ta hag this]
    have hp : (derefCell h1 e.2).piece.map (derefPiece h2)
        = (derefCell h1 e.2).piece.map (derefPiece h1) := by
      cases hterm : (derefCell h1 e.2).piece with
      | none => rfl
      | some pa =>
          have : pa < n := hwfb e he pa (by simp [cellAddrs, hterm])
          simp [derefPiece_congr h1 h2 n pa hag this]
    rw [ht, hp]
  have hwfO : ∀ a, a ∈ s.playerStashes.flatMap (fun e => e.2)
        ∨ a ∈ s.communityPool ∨ a ∈ s.graveyard → a < n := by
    intro a ha
    refine hwf a ?_
    unfold reachH
    rcases ha with ha | ha | ha
    · exact List.mem_append.mpr (Or.inl (List.mem_append.mpr (Or.inl
        (List.mem_append.mpr (Or.inr ha)))))
    · exact List.mem_append.mpr (Or.inl (List.mem_append.mpr (Or.inr ha)))
    · exact List.mem_append.mpr (Or.inr ha)
  have hs : s.playerStashes.map (fun e => (e.1, e.2.map (derefPiece h2)))
      = s.playerStashes.map (fun e => (e.1, e.2.map (derefPiece h1))) := by
    refine List.map_congr_left ?_
    intro e he
    have : e.2.map (derefPiece h2) = e.2.map (derefPiece h1) := by
      refine List.map_congr_left ?_
      intro a hamem
      exact derefPiece_congr h1 h2 n a hag
        (hwfO a (Or.inl (List.mem_flatMap_of_mem he hamem)))
    rw [this]
  have hcp : s.communityPool.map (derefPiece h2) = s.communityPool.map (derefPiece h1) :=
    List.map_congr_left (fun a hamem =>
      derefPiece_congr h1 h2 n a hag (hwfO a (Or.inr (Or.inl hamem))))
  have hg : s.graveyard.map (derefPiece h2) = s.graveyard.map (derefPiece h1) :=
    List.map_congr_left (fun a hamem =>
      derefPiece_congr h1 h2 n a hag (hwfO a (Or.inr (Or.inr hamem))))
  rw [hb, hs, hcp, hg]

/-- copyPieceAddrs, one step, restated through projections. -/
theorem copyPieceAddrs_cons (h : Heap) (a : Nat) (rest : List Nat) :
    copyPieceAddrs h (a :: rest)
      = (h.length :: (copyPieceAddrs (h ++ [.pieceO (derefPiece h a)]) rest).1,
         (copyPieceAddrs (h ++ [.pieceO (derefPiece h a)]) rest).2) := rfl

/-- copyPieceAddrs extends the heap and returns only fresh addresses. -/
theorem copyPieceAddrs_spec (as : List Nat) (h : Heap) :
    (∃ t, (copyPieceAddrs h as).2 = h ++ t)
      ∧ ∀ a2 ∈ (copyPieceAddrs h as).1,
          h.length ≤ a2 ∧ a2 < (copyPieceAddrs h as).2.length := by
  induction as generalizing h with
  | nil => exact ⟨⟨[], by simp [copyPieceAddrs]⟩, by simp [copyPieceAddrs]⟩
  | cons a rest ih =>
      rw [copyPieceAddrs_cons]
      obtain ⟨⟨t, ht⟩, hmem⟩ := ih (h ++ [.pieceO (derefPiece h a)])
      refine ⟨⟨HObj.pieceO (derefPiece h a) :: t, by simpa using ht⟩, ?_⟩
      intro a2 ha2
      rcases List.mem_cons.mp ha2 with h0 | h0
      · subst h0
        refine ⟨le_rfl, ?_⟩
        rw [ht]
        simp only [List.length_append, List.length_cons, List.length_nil]
        omega
      · obtain ⟨h1, h2⟩ := hmem a2 h0
        refine ⟨?_, h2⟩
        simp at h1
        omega

/-- copyOptPieceAddr extends the heap and returns only fresh addresses. -/
theorem copyOptPieceAddr_spec (o : Option Nat) (h : Heap) :
    (∃ t, (copyOptPieceAddr h o).2 = h ++ t)
      ∧ ∀ a2 ∈ (copyOptPieceAddr h o).1,
          h.length ≤ a2 ∧ a2 < (copyOptPieceAddr h o).2.length := by
  cases o with
  | none => exact ⟨⟨[], by simp [copyOptPieceAddr]⟩, by simp [copyOptPieceAddr]⟩
  | some a =>
      refine ⟨⟨[.pieceO (derefPiece h a)], rfl⟩, ?_⟩
      intro a2 ha2
      simp [copyOptPieceAddr, heapAlloc] at ha2
      subst ha2
      simp [copyOptPieceAddr, heapAlloc]

/-- copyBoardH, one step, restated through projections (the cell object is
written with the anonymous constructor: coordKey, terrain, piece). -/
theorem copyBoardH_cons (h : Heap) (e : Coordinate × Nat) (rest : List (Coordinate × Nat)) :
    copyBoardH h (e :: rest)
      = ((e.1, ((copyOptPieceAddr (copyOptPieceAddr h (derefCell h e.2).terrain).2
                  (derefCell h e.2).piece).2).length)
           :: (copyBoardH
                ((copyOptPieceAddr (copyOptPieceAddr h (derefCell h e.2).terrain).2
                    (derefCell h e.2).piece).2
                  ++ [HObj.cellO
                      ⟨e.1, (copyOptPieceAddr h (derefCell h e.2).terrain).1,
                        (copyOptPieceAddr (copyOptPieceAddr h (derefCell h e.2).terrain).2
                          (derefCell h e.2).piece).1⟩])
                rest).1,
         (copyBoardH
            ((copyOptPieceAddr (copyOptPieceAddr h (derefCell h e.2).terrain).2
                (derefCell h e.2).piece).2
              ++ [HObj.cellO
                  ⟨e.1, (copyOptPieceAddr h (derefCell h e.2).terrain).1,
                    (copyOptPieceAddr (copyOptPieceAddr h (derefCell h e.2).terrain).2
                      (derefCell h e.2).piece).1⟩])
            rest).2) := by
  cases e with
  | mk k ca => rfl

/-- copyBoardH extends the heap; every returned cell address is fresh and
its cell object, read back in the final heap, holds only fresh occupant
addresses. -/
theorem copyBoardH_spec (bl : List (Coordinate × Nat)) (h : Heap) :
    (∃ t, (copyBoardH h bl).2 = h ++ t)
      ∧ ∀ e ∈ (copyBoardH h bl).1,
          h.length ≤ e.2 ∧ e.2 < (copyBoardH h bl).2.length
          ∧ ∀ x ∈ cellAddrs (copyBoardH h bl).2 e.2,
              h.length ≤ x ∧ x < (copyBoardH h bl).2.length := by
  induction bl generalizing h with
  | nil => exact ⟨⟨[], by simp [copyBoardH]⟩, by simp [copyBoardH]⟩
  | cons e rest ih =>
      rw [copyBoardH_cons]
      dsimp only
      obtain ⟨⟨tA, htA⟩, hmemA⟩ := copyOptPieceAddr_spec (derefCell h e.2).terrain h
      set hA := (copyOptPieceAddr h (derefCell h e.2).terrain).2 with hAdef
      obtain ⟨⟨tB, htB⟩, hmemB⟩ := copyOptPieceAddr_spec (derefCell h e.2).piece hA
      set hB := (copyOptPieceAddr hA (derefCell h e.2).piece).2 with hBdef
      set cobj : CellObj :=
        ⟨e.1, (copyOptPieceAddr h (derefCell h e.2).terrain).1,
          (copyOptPieceAddr hA (derefCell h e.2).piece).1⟩ with hcobj
      set hC := hB ++ [HObj.cellO cobj] with hCdef
      obtain ⟨⟨tR, htR⟩, hmemR⟩ := ih hC
      have hlenA : h.length ≤ hA.length := by rw [htA]; simp
      have hlenB : hA.length ≤ hB.length := by rw [htB]; simp
      have hlenC : hB.length < hC.length := by rw [hCdef]; simp
      have hlenR : hC.length ≤ (copyBoardH hC rest).2.length := by rw [htR]; simp
      have hgetcell : (copyBoardH hC rest).2.get? hB.length = some (HObj.cellO cobj) := by
        rw [htR]
        rw [heap_get?_append _ _ _ (by rw [hCdef]; simp)]
        rw [hCdef]
        exact List.get?_concat_length hB (HObj.cellO cobj)
      refine ⟨⟨tA ++ tB ++ [HObj.cellO cobj] ++ tR, by
        rw [htR, hCdef, htB, htA]; simp⟩, ?_⟩
      intro e2 he2
      rcases List.mem_cons.mp he2 with h0 | h0
      · subst h0
        refine ⟨by simpa using le_trans hlenA hlenB, by
          simpa using lt_of_lt_of_le hlenC hlenR, ?_⟩
        intro x hx
        unfold cellAddrs at hx
        rw [show derefCell (copyBoardH hC rest).2 hB.length = cobj from by
          unfold derefCell; rw [hgetcell]] at hx
        rcases List.mem_cons.mp hx with hx0 | hx0
        · subst hx0
          exact ⟨le_trans hlenA hlenB, lt_of_lt_of_le hlenC hlenR⟩
        · rcases List.mem_append.mp hx0 with hx1 | hx1
          · have hxt : (copyOptPieceAddr h (derefCell h e.2).terrain).1 = some x := by
              have h9 : cobj.terrain = some x := by simpa using hx1
              simpa [hcobj] using h9
            have hb := hmemA x (by simp [Option.mem_def, hxt])
            refine ⟨hb.1, ?_⟩
            have : x < hA.length := hb.2
            omega
          · have hxp : (copyOptPieceAddr hA (derefCell h e.2).piece).1 = some x := by
              have h9 : cobj.piece = some x := by simpa using hx1
              simpa [hcobj] using h9
            have hb := hmemB x (by simp [Option.mem_def, hxp])
            refine ⟨le_trans hlenA hb.1, ?_⟩
            have : x < hB.length := hb.2
            omega
      · obtain ⟨hb1, hb2, hb3⟩ := hmemR e2 h0
        refine ⟨?_, hb2, ?_⟩
        · have : h.length ≤ hC.length :=
            le_trans (le_trans hlenA hlenB) (le_of_lt hlenC)
          omega
        · intro x hx
          obtain ⟨hc1, hc2⟩ := hb3 x hx
          have : h.length ≤ hC.length :=
            le_trans (le_trans hlenA hlenB) (le_of_lt hlenC)
          exact ⟨by omega, hc2⟩

/-- copyStashesH, one step, restated through projections. -/
theorem copyStashesH_cons (h : Heap) (e : String × List Nat)
    (rest : List (String × List Nat)) :
    copyStashesH h (e :: rest)
      = ((e.1, (copyPieceAddrs h e.2).1)
           :: (copyStashesH (copyPieceAddrs h e.2).2 rest).1,
         (copyStashesH (copyPieceAddrs h e.2).2 rest).2) := by
  cases e with
  | mk k ps => rfl

/-- copyStashesH extends the heap and returns only fresh addresses. -/
theorem copyStashesH_spec (sl : List (String × List Nat)) (h : Heap) :
    (∃ t, (copyStashesH h sl).2 = h ++ t)
      ∧ ∀ a2 ∈ (copyStashesH h sl).1.flatMap (fun e => e.2),
          h.length ≤ a2 ∧ a2 < (copyStashesH h sl).2.length := by
  induction sl generalizing h with
  | nil => exact ⟨⟨[], by simp [copyStashesH]⟩, by simp [copyStashesH]⟩
  | cons e rest ih =>
      rw [copyStashesH_cons]
      obtain ⟨⟨tP, htP⟩, hmemP⟩ := copyPieceAddrs_spec e.2 h
      set hP := (copyPieceAddrs h e.2).2 with hPdef
      obtain ⟨⟨tR, htR⟩, hmemR⟩ := ih hP
      have hlenP : h.length ≤ hP.length := by rw [htP]; simp
      have hlenR : hP.length ≤ (copyStashesH hP rest).2.length := by rw [htR]; simp
      refine ⟨⟨tP ++ tR, by rw [htR, htP]; simp⟩, ?_⟩
      intro a2 ha2
      simp only [List.flatMap_cons, List.mem_append] at ha2
      rcases ha2 with h0 | h0
      · obtain ⟨hp1, hp2⟩ := hmemP a2 h0
        exact ⟨hp1, lt_of_lt_of_le hp2 hlenR⟩
      · obtain ⟨hp1, hp2⟩ := hmemR a2 h0
        exact ⟨le_trans hlenP hp1, hp2⟩

/-- Claim C6: no aliasing on clone. For a well-formed state, every object
reachable from the covered substructures of the copy (board cells, their
terrain and piece occupants, stash, pool and graveyard pieces) is a fresh
allocation: it is disjoint from everything reachable from the source, and
overwriting any such object leaves the source's observable content — its
dereferenced board, stashes, pool and graveyard — unchanged. -/
theorem copy_no_aliasing (h : Heap) (s : GameStateH) (hwf : wfH h s) :
    (∀ b ∈ reachH (gameStateHCopy h s).2 (gameStateHCopy h s).1, ∀ v : HObj,
        b ∉ reachH (gameStateHCopy h s).2 s
        ∧ readStateH (heapSet (gameStateHCopy h s).2 b v) s
            = readStateH (gameStateHCopy h s).2 s)
      ∧ readStateH (gameStateHCopy h s).2 s = readStateH h s := by
  obtain ⟨⟨t1, ht1⟩, hmem1⟩ := copyBoardH_spec s.board h
  set h1 := (copyBoardH h s.board).2 with h1def
  obtain ⟨⟨t2, ht2⟩, hmem2⟩ := copyStashesH_spec s.playerStashes h1
  set h2 := (copyStashesH h1 s.playerStashes).2 with h2def
  obtain ⟨⟨t3, ht3⟩, hmem3⟩ := copyPieceAddrs_spec s.communityPool h2
  set h3 := (copyPieceAddrs h2 s.communityPool).2 with h3def
  obtain ⟨⟨t4, ht4⟩, hmem4⟩ := copyPieceAddrs_spec s.graveyard h3
  set h4 := (copyPieceAddrs h3 s.graveyard).2 with h4def
  have l01 : h.length ≤ h1.length := by rw [ht1]; simp
  have l12 : h1.length ≤ h2.length := by rw [ht2]; simp
  have l23 : h2.length ≤ h3.length := by rw [ht3]; simp
  have l34 : h3.length ≤ h4.length := by rw [ht4]; simp
  have hcopy2 : (gameStateHCopy h s).2 = h4 := rfl
  have hcopy1 : (gameStateHCopy h s).1
      = ⟨(copyBoardH h s.board).1, (copyStashesH h1 s.playerStashes).1,
         (copyPieceAddrs h2 s.communityPool).1, (copyPieceAddrs h3 s.graveyard).1⟩ := rfl
  have hag41 : ∀ a, a < h1.length → h4.get? a = h1.get? a := by
    intro a ha
    have e4 : h4.get? a = h3.get? a := by
      rw [ht4]; exact heap_get?_append _ _ _ (by omega)
    have e3 : h3.get? a = h2.get? a := by
      rw [ht3]; exact heap_get?_append _ _ _ (by omega)
    have e2 : h2.get? a = h1.get? a := by
      rw [ht2]; exact heap_get?_append _ _ _ (by omega)
    rw [e4, e3, e2]
  have hag40 : ∀ a, a < h.length → h4.get? a = h.get? a := by
    intro a ha
    rw [hag41 a (by omega)]
    rw [ht1]
    exact heap_get?_append _ _ _ (by omega)
  have hfresh : ∀ b ∈ reachH h4 (gameStateHCopy h s).1, h.length ≤ b := by
    intro b hb
    rw [hcopy1] at hb
    unfold reachH at hb
    simp only [List.mem_append] at hb
    rcases hb with ((hb | hb) | hb) | hb
    · rcases List.mem_flatMap.mp hb with ⟨ca, hca, hbca⟩
      rcases List.mem_map.mp hca with ⟨e, he, hee⟩
      obtain ⟨hb1, hb2, hb3⟩ := hmem1 e he
      have hcells : cellAddrs h4 ca = cellAddrs h1 ca := by
        refine cellAddrs_congr h1 h4 h1.length ca hag41 ?_
        rw [← hee]
        exact hb2
      rw [hcells, ← hee] at hbca
      exact (hb3 b hbca).1
    · rcases List.mem_flatMap.mp hb with ⟨e2, he2, hbe2⟩
      have : b ∈ (copyStashesH h1 s.playerStashes).1.flatMap (fun e => e.2) :=
        List.mem_flatMap_of_mem he2 hbe2
      exact le_trans l01 (hmem2 b this).1
    · exact le_trans (le_trans l01 l12) (hmem3 b hb).1
    · exact le_trans (le_trans (le_trans l01 l12) l23) (hmem4 b hb).1
  have hwfn : ∀ a ∈ reachH h s, a < h.length := hwf
  have hreach : reachH h4 s = reachH h s :=
    reachH_congr h h4 h.length s hag40 hwfn
  have hread4 : readStateH h4 s = readStateH h s :=
    readStateH_congr h h4 h.length s hag40 hwfn
  constructor
  · intro b hb v
    rw [hcopy2] at hb ⊢
    have hbfresh : h.length ≤ b := hfresh b hb
    constructor
    · rw [hreach]
      intro hmem
      have := hwfn b hmem
      omega
    · have hagset : ∀ a, a < h.length → (heapSet h4 b v).get? a = h.get? a := by
        intro a ha
        rw [heap_get?_set_ne h4 b a v (by omega)]
        exact hag40 a ha
      rw [readStateH_congr h (heapSet h4 b v) h.length s hagset hwfn, hread4]
  · rw [hcopy2]
    exact hread4

/-- Witness for the no-aliasing claim: address 4 is the copied terrain
object of the concrete heap; overwriting it leaves the source readout
unchanged. -/
theorem copy_no_aliasing_witness :
    (4 ∈ reachH (gameStateHCopy exHeap exStateH).2 (gameStateHCopy exHeap exStateH).1)
      ∧ ((4 ∉ reachH (gameStateHCopy exHeap exStateH).2 exStateH)
          ∧ readStateH (heapSet (gameStateHCopy exHeap exStateH).2 4
                (HObj.pieceO ⟨"X", "X", "X"⟩)) exStateH
              = readStateH (gameStateHCopy exHeap exStateH).2 exStateH)
      ∧ readStateH (gameStateHCopy exHeap exStateH).2 exStateH
          = readStateH exHeap exStateH :=
  ⟨by decide,
   (copy_no_aliasing exHeap exStateH (by unfold wfH; decide)).1 4 (by decide)
     (HObj.pieceO ⟨"X", "X", "X"⟩),
   (copy_no_aliasing exHeap exStateH (by unfold wfH; decide)).2⟩

/-- Two states with equal scrubbed forms differ only in lastModified. -/
theorem eraseLM_subst (s1 s2 : GameState) (h : eraseLM s1 = eraseLM s2) :
    s1 = { s2 with lastModified := s1.lastModified } := by
  cases s1
  cases s2
  simp only [eraseLM, GameState.mk.injEq] at h ⊢
  simp_all

/-- Scrubbing ignores a lastModified overwrite. -/
theorem eraseLM_withLM (s : GameState) (l : Nat) :
    eraseLM { s with lastModified := l } = eraseLM s := rfl

/-- getCellRun returns the same cell on LM-equivalent states, and keeps
them LM-equivalent. -/
theorem getCellRun_ELM (s1 s2 : GameState) (h : eraseLM s1 = eraseLM s2)
    (c : Coordinate) :
    (s1.getCellRun c).1 = (s2.getCellRun c).1
      ∧ eraseLM (s1.getCellRun c).2 = eraseLM (s2.getCellRun c).2 := by
  rw [eraseLM_subst s1 s2 h]
  unfold GameState.getCellRun
  dsimp only
  cases hmg : mapGet? s2.board c <;> exact ⟨rfl, rfl⟩

/-- setPiece keeps LM-equivalent states LM-equivalent (no field other than
lastModified ever reads the clock). -/
theorem setPiece_ELM (s1 s2 : GameState) (h : eraseLM s1 = eraseLM s2)
    (c : Coordinate) (q : Option Piece) (n1 n2 : Nat) :
    eraseLM (s1.setPiece c q n1) = eraseLM (s2.setPiece c q n2) := by
  rw [eraseLM_subst s1 s2 h]
  unfold GameState.setPiece GameState.getCellRun GameState.updateLastModified
  dsimp only
  cases hmg : mapGet? s2.board c <;>
    by_cases hsim : s2.isSimulation = true <;>
      simp [hsim, eraseLM]

/-- setTerrain keeps LM-equivalent states LM-equivalent. -/
theorem setTerrain_ELM (s1 s2 : GameState) (h : eraseLM s1 = eraseLM s2)
    (c : Coordinate) (t : Option Piece) (n1 n2 : Nat) :
    eraseLM (s1.setTerrain c t n1) = eraseLM (s2.setTerrain c t n2) := by
  rw [eraseLM_subst s1 s2 h]
  unfold GameState.setTerrain GameState.getCellRun GameState.updateLastModified
  dsimp only
  cases hmg : mapGet? s2.board c <;>
    by_cases hsim : s2.isSimulation = true <;>
      simp [hsim, eraseLM]

/-- removeTerrain returns the same terrain on LM-equivalent states and
keeps them LM-equivalent. -/
theorem removeTerrain_ELM (s1 s2 : GameState) (h : eraseLM s1 = eraseLM s2)
    (c : Coordinate) (n1 n2 : Nat) :
    (s1.removeTerrain c n1).1 = (s2.removeTerrain c n2).1
      ∧ eraseLM (s1.removeTerrain c n1).2 = eraseLM (s2.removeTerrain c n2).2 := by
  rw [eraseLM_subst s1 s2 h]
  unfold GameState.removeTerrain GameState.getCellRun GameState.updateLastModified
  dsimp only
  cases hmg : mapGet? s2.board c
  · by_cases hsim : s2.isSimulation = true <;> simp [hsim, eraseLM, Cell.empty]
  · rename_i cell
    cases hct : cell.terrain <;>
      by_cases hsim : s2.isSimulation = true <;>
        simp [hsim, hct, eraseLM]

/-- moveToGraveyard keeps LM-equivalent states LM-equivalent. -/
theorem moveToGraveyard_ELM (s1 s2 : GameState) (h : eraseLM s1 = eraseLM s2)
    (p : Piece) (n1 n2 : Nat) :
    eraseLM (s1.moveToGraveyard p n1) = eraseLM (s2.moveToGraveyard p n2) := by
  rw [eraseLM_subst s1 s2 h]
  unfold GameState.moveToGraveyard GameState.updateLastModified
  dsimp only
  by_cases hsim : s2.isSimulation = true <;> simp [hsim, eraseLM]

/-- addToCommunityPool keeps LM-equivalent states LM-equivalent. -/
theorem addToCommunityPool_ELM (s1 s2 : GameState) (h : eraseLM s1 = eraseLM s2)
    (p : Piece) (n1 n2 : Nat) :
    eraseLM (s1.addToCommunityPool p n1) = eraseLM (s2.addToCommunityPool p n2) := by
  rw [eraseLM_subst s1 s2 h]
  unfold GameState.addToCommunityPool GameState.updateLastModified
  dsimp only
  by_cases hsim : s2.isSimulation = true <;> simp [hsim, eraseLM]

/-- getLandFromCommunityPool returns the same piece on LM-equivalent states
and keeps them LM-equivalent. -/
theorem getLand_ELM (s1 s2 : GameState) (h : eraseLM s1 = eraseLM s2)
    (n1 n2 : Nat) :
    (s1.getLandFromCommunityPool n1).1 = (s2.getLandFromCommunityPool n2).1
      ∧ eraseLM (s1.getLandFromCommunityPool n1).2
          = eraseLM (s2.getLandFromCommunityPool n2).2 := by
  rw [eraseLM_subst s1 s2 h]
  unfold GameState.getLandFromCommunityPool GameState.updateLastModified
  dsimp only
  cases hidx : s2.communityPool.findIdx? (fun p => p.type == "Land")
  · exact ⟨rfl, rfl⟩
  · by_cases hsim : s2.isSimulation = true <;> simp [hsim, eraseLM]

/-- nextTurn keeps LM-equivalent states LM-equivalent. -/
theorem nextTurn_ELM (s1 s2 : GameState) (h : eraseLM s1 = eraseLM s2)
    (n1 n2 : Nat) :
    eraseLM (s1.nextTurn n1) = eraseLM (s2.nextTurn n2) := by
  rw [eraseLM_subst s1 s2 h]
  unfold GameState.nextTurn GameState.updateLastModified
  dsimp only
  by_cases hz : ((s2.currentPlayerIndex + 1) % s2.players.length == 0) = true <;>
    by_cases hsim : s2.isSimulation = true <;>
      simp [hz, hsim, eraseLM]

/-- removeCellContents returns the same contents on LM-equivalent states
and keeps them LM-equivalent. -/
theorem removeCellContents_ELM (s1 s2 : GameState) (h : eraseLM s1 = eraseLM s2)
    (c : Coordinate) (n1 n2 : Nat) :
    (s1.removeCellContents c n1).1 = (s2.removeCellContents c n2).1
      ∧ eraseLM (s1.removeCellContents c n1).2
          = eraseLM (s2.removeCellContents c n2).2 := by
  rw [eraseLM_subst s1 s2 h]
  unfold GameState.removeCellContents GameState.getCellRun Cell.clearFn
    GameState.addToCommunityPool GameState.moveToGraveyard GameState.updateLastModified
  dsimp only
  cases hmg : mapGet? s2.board c
  · by_cases hsim : s2.isSimulation = true <;> simp [hsim, eraseLM, Cell.empty]
  · rename_i cell
    cases hct : cell.terrain <;> cases hcp : cell.piece <;>
      by_cases hsim : s2.isSimulation = true <;>
        simp [hsim, hct, hcp, eraseLM]

/-- LM-equivalent states share every field but lastModified. -/
theorem ELM_board (s1 s2 : GameState) (h : eraseLM s1 = eraseLM s2) :
    s1.board = s2.board := by
  have h2 := congrArg GameState.board h
  exact h2

/-- LM-equivalent states share every field but lastModified. -/
theorem ELM_players (s1 s2 : GameState) (h : eraseLM s1 = eraseLM s2) :
    s1.players = s2.players := by
  have h2 := congrArg GameState.players h
  exact h2

/-- LM-equivalent states share every field but lastModified. -/
theorem ELM_actionHistory (s1 s2 : GameState) (h : eraseLM s1 = eraseLM s2) :
    s1.actionHistory = s2.actionHistory := by
  have h2 := congrArg GameState.actionHistory h
  exact h2

/-- A pure currentPlayerIndex update respects LM-equivalence. -/
theorem ELM_update_cpi (s1 s2 : GameState) (h : eraseLM s1 = eraseLM s2) (i : Nat) :
    eraseLM { s1 with currentPlayerIndex := i }
      = eraseLM { s2 with currentPlayerIndex := i } := by
  rw [eraseLM_subst s1 s2 h]
  rfl

/-- A pure turnNumber update respects LM-equivalence. -/
theorem ELM_update_turn (s1 s2 : GameState) (h : eraseLM s1 = eraseLM s2) (t : Nat) :
    eraseLM { s1 with turnNumber := t } = eraseLM { s2 with turnNumber := t } := by
  rw [eraseLM_subst s1 s2 h]
  rfl

/-- Piece resolution ignores lastModified. -/
theorem findOrCreatePiece_ELM (s1 s2 : GameState) (h : eraseLM s1 = eraseLM s2)
    (pid : String) (a : GameAction) (f : PieceJSON → Piece) :
    findOrCreatePiece s1 pid a f = findOrCreatePiece s2 pid a f := by
  rw [eraseLM_subst s1 s2 h]
  rfl

/-- replayPlaceAction respects LM-equivalence. -/
theorem replayPlaceAction_ELM (s1 s2 : GameState) (h : eraseLM s1 = eraseLM s2)
    (p : Piece) (a : GameAction) (n1 n2 : Nat) :
    eraseLM (replayPlaceAction s1 p a n1) = eraseLM (replayPlaceAction s2 p a n2) := by
  unfold replayPlaceAction
  cases hat : a.data.«at» with
  | none => exact h
  | some coord =>
      dsimp only
      by_cases hl : (p.type == "Land") = true
      · simp only [hl, if_true]
        exact setTerrain_ELM s1 s2 h _ _ _ _
      · simp only [hl, Bool.false_eq_true, if_false]
        exact setPiece_ELM s1 s2 h _ _ _ _

/-- replayRemoveTerrainAction respects LM-equivalence. -/
theorem replayRemoveTerrainAction_ELM (s1 s2 : GameState)
    (h : eraseLM s1 = eraseLM s2) (a : GameAction) (n1 n2 : Nat) :
    eraseLM (replayRemoveTerrainAction s1 a n1)
      = eraseLM (replayRemoveTerrainAction s2 a n2) := by
  unfold replayRemoveTerrainAction
  cases hat : a.data.«at» with
  | none => exact h
  | some coord =>
      exact (removeCellContents_ELM s1 s2 h coord n1 n2).2

/-- replayPlaceTerrainAction, restated through projections. -/
theorem replayPlaceTerrainAction_def (s : GameState) (a : GameAction) (n : Nat)
    (coord : Coordinate) (hat : a.data.«at» = some coord) :
    replayPlaceTerrainAction s a n =
      (match (s.getLandFromCommunityPool n).1 with
       | some landPiece =>
           ((s.getLandFromCommunityPool n).2).setTerrain coord (some landPiece) n
       | none => (s.getLandFromCommunityPool n).2) := by
  unfold replayPlaceTerrainAction
  rw [hat]

/-- replayPlaceTerrainAction respects LM-equivalence. -/
theorem replayPlaceTerrainAction_ELM (s1 s2 : GameState)
    (h : eraseLM s1 = eraseLM s2) (a : GameAction) (n1 n2 : Nat) :
    eraseLM (replayPlaceTerrainAction s1 a n1)
      = eraseLM (replayPlaceTerrainAction s2 a n2) := by
  cases hat : a.data.«at» with
  | none =>
      unfold replayPlaceTerrainAction
      rw [hat]
      exact h
  | some coord =>
      rw [replayPlaceTerrainAction_def s1 a n1 coord hat,
          replayPlaceTerrainAction_def s2 a n2 coord hat]
      obtain ⟨hg1, hg2⟩ := getLand_ELM s1 s2 h n1 n2
      rw [hg1]
      cases hland : (s2.getLandFromCommunityPool n2).1 with
      | none => exact hg2
      | some landPiece => exact setTerrain_ELM _ _ hg2 _ _ _ _

/-- replayMoveAction, restated through projections. -/
theorem replayMoveAction_def (s : GameState) (p : Piece) (a : GameAction) (n : Nat)
    (fromC toC : Coordinate)
    (hf : a.data.«from» = some fromC) (ht : a.data.«to» = some toC) :
    replayMoveAction s p a n =
      (if truthyStr a.data.captured then
         match (((s.setPiece fromC none n).getCellRun toC).1).piece with
         | some tp => (((s.setPiece fromC none n).getCellRun toC).2).moveToGraveyard tp n
         | none => ((s.setPiece fromC none n).getCellRun toC).2
       else s.setPiece fromC none n).setPiece toC (some p) n := by
  unfold replayMoveAction
  rw [hf, ht]

/-- replayMoveAction respects LM-equivalence. -/
theorem replayMoveAction_ELM (s1 s2 : GameState) (h : eraseLM s1 = eraseLM s2)
    (p : Piece) (a : GameAction) (n1 n2 : Nat) :
    eraseLM (replayMoveAction s1 p a n1) = eraseLM (replayMoveAction s2 p a n2) := by
  cases hf : a.data.«from» with
  | none =>
      unfold replayMoveAction
      rw [hf]
      exact h
  | some fromC =>
      cases ht : a.data.«to» with
      | none =>
          unfold replayMoveAction
          rw [hf, ht]
          exact h
      | some toC =>
          rw [replayMoveAction_def s1 p a n1 fromC toC hf ht,
              replayMoveAction_def s2 p a n2 fromC toC hf ht]
          have h1 := setPiece_ELM s1 s2 h fromC none n1 n2
          by_cases hcap : truthyStr a.data.captured = true
          · simp only [hcap, if_true]
            obtain ⟨hc1, hc2⟩ := getCellRun_ELM _ _ h1 toC
            rw [hc1]
            cases hcp : ((((s2.setPiece fromC none n2).getCellRun toC).1)).piece with
            | none => exact setPiece_ELM _ _ hc2 _ _ _ _
            | some tp =>
                exact setPiece_ELM _ _ (moveToGraveyard_ELM _ _ hc2 tp n1 n2) _ _ _ _
          · simp only [hcap, Bool.false_eq_true, if_false]
            exact setPiece_ELM _ _ h1 _ _ _ _

/-- A pure board overwrite respects LM-equivalence. -/
theorem ELM_update_board (s1 s2 : GameState) (h : eraseLM s1 = eraseLM s2)
    (b : List (Coordinate × Cell)) :
    eraseLM { s1 with board := b } = eraseLM { s2 with board := b } := by
  rw [eraseLM_subst s1 s2 h]
  rfl

/-- replayMoveTerrainAction restated through projections and mtClearStep. -/
theorem replayMoveTerrainAction_def (s : GameState) (a : GameAction) (now : Nat) :
    replayMoveTerrainAction s a now =
      match a.data.«from», a.data.«to» with
      | some fromC, some toC =>
          let p1 := s.removeTerrain fromC now
          let p2 := p1.2.getCellRun fromC
          let s3 := mtClearStep p2.2 fromC p2.1 now
          let p3 := s3.getCellRun toC
          let s4 := mtClearStep p3.2 toC p3.1 now
          (match p1.1 with
           | some t => s4.setTerrain toC (some t) now
           | none => s4)
      | _, _ => s := by
  unfold replayMoveTerrainAction mtClearStep
  rfl

/-- The capture-and-clear step of the terrain-move replay respects
LM-equivalence. -/
theorem mtClearStep_ELM (s1 s2 : GameState) (h : eraseLM s1 = eraseLM s2)
    (c : Coordinate) (cell : Cell) (n1 n2 : Nat) :
    eraseLM (mtClearStep s1 c cell n1) = eraseLM (mtClearStep s2 c cell n2) := by
  unfold mtClearStep
  cases hcp : cell.piece with
  | none => exact h
  | some q =>
      dsimp only
      have hm := moveToGraveyard_ELM s1 s2 h q n1 n2
      have hb := ELM_board _ _ hm
      rw [hb]
      exact ELM_update_board _ _ hm _

/-- replayMoveTerrainAction respects LM-equivalence. -/
theorem replayMoveTerrainAction_ELM (s1 s2 : GameState)
    (h : eraseLM s1 = eraseLM s2) (a : GameAction) (n1 n2 : Nat) :
    eraseLM (replayMoveTerrainAction s1 a n1)
      = eraseLM (replayMoveTerrainAction s2 a n2) := by
  rw [replayMoveTerrainAction_def s1 a n1, replayMoveTerrainAction_def s2 a n2]
  cases hf : a.data.«from» with
  | none => exact h
  | some fromC =>
      cases ht : a.data.«to» with
      | none => exact h
      | some toC =>
          dsimp only
          obtain ⟨hr1, hr2⟩ := removeTerrain_ELM s1 s2 h fromC n1 n2
          obtain ⟨hg1, hg2⟩ := getCellRun_ELM _ _ hr2 fromC
          rw [hg1]
          have h2 := mtClearStep_ELM _ _ hg2 fromC
            (((s2.removeTerrain fromC n2).2.getCellRun fromC).1) n1 n2
          obtain ⟨hh1, hh2⟩ := getCellRun_ELM _ _ h2 toC
          rw [hh1]
          have h4 := mtClearStep_ELM _ _ hh2 toC
            ((mtClearStep ((s2.removeTerrain fromC n2).2.getCellRun fromC).2 fromC
              ((s2.removeTerrain fromC n2).2.getCellRun fromC).1 n2).getCellRun toC).1 n1 n2
          rw [hr1]
          cases hterm : (s2.removeTerrain fromC n2).1 with
          | none => exact h4
          | some t => exact setTerrain_ELM _ _ h4 toC (some t) n1 n2

/-- Appending to the history and overwriting lastModified with a common
value preserves LM-equivalence. -/
theorem ELM_append_hist (t1 t2 : GameState) (h : eraseLM t1 = eraseLM t2)
    (l : List HistEntry) (x : Nat) :
    eraseLM { t1 with actionHistory := t1.actionHistory ++ l, lastModified := x }
      = eraseLM { t2 with actionHistory := t2.actionHistory ++ l, lastModified := x } := by
  have hh := ELM_actionHistory t1 t2 h
  rw [hh, eraseLM_subst t1 t2 h]

/-- replayAction restated through the named helper steps. -/
theorem replayAction_def (f : PieceJSON → Piece) (s : GameState) (a : GameAction)
    (now : Nat) :
    replayAction f s a now =
      if (findOrCreatePiece s a.pieceId a f).isNone && (a.type != "end_turn") then s
      else replayFinish
        (replayDispatch (replayStep2 s a) (findOrCreatePiece s a.pieceId a f) a now)
        a := by
  unfold replayAction replayStep2 replayDispatch replayFinish
  rfl

/-- The synchronisation step respects LM-equivalence. -/
theorem replayStep2_ELM (s1 s2 : GameState) (h : eraseLM s1 = eraseLM s2)
    (a : GameAction) :
    eraseLM (replayStep2 s1 a) = eraseLM (replayStep2 s2 a) := by
  unfold replayStep2
  have hidx : s1.players.findIdx? (fun q => q == a.player)
      = s2.players.findIdx? (fun q => q == a.player) := by
    rw [ELM_players s1 s2 h]
  cases hq : s1.players.findIdx? (fun q => q == a.player) with
  | some i =>
      rw [hidx] at hq
      rw [hq]
      dsimp only
      exact ELM_update_turn { s1 with currentPlayerIndex := i }
        { s2 with currentPlayerIndex := i } (ELM_update_cpi s1 s2 h i) a.turnNumber
  | none =>
      rw [hidx] at hq
      rw [hq]
      dsimp only
      exact ELM_update_turn s1 s2 h a.turnNumber

/-- The per-type dispatch respects LM-equivalence. -/
theorem replayDispatch_ELM (u1 u2 : GameState) (hU : eraseLM u1 = eraseLM u2)
    (pc : Option Piece) (a : GameAction) (n1 n2 : Nat) :
    eraseLM (replayDispatch u1 pc a n1) = eraseLM (replayDispatch u2 pc a n2) := by
  unfold replayDispatch
  cases pc with
  | none =>
      by_cases he : (a.type == "end_turn") = true
      · simp only [he, if_true]
        exact nextTurn_ELM u1 u2 hU n1 n2
      · rw [Bool.not_eq_true] at he
        simp only [he, Bool.false_eq_true, if_false]
        exact hU
  | some p =>
      by_cases c1 : (a.type == "place") = true
      · simp only [c1, if_true]
        exact replayPlaceAction_ELM u1 u2 hU p a n1 n2
      · rw [Bool.not_eq_true] at c1
        simp only [c1, Bool.false_eq_true, if_false]
        by_cases c2 : (a.type == "move") = true
        · simp only [c2, if_true]
          exact replayMoveAction_ELM u1 u2 hU p a n1 n2
        · rw [Bool.not_eq_true] at c2
          simp only [c2, Bool.false_eq_true, if_false]
          by_cases c3 : (a.type == "move_terrain") = true
          · simp only [c3, if_true]
            exact replayMoveTerrainAction_ELM u1 u2 hU a n1 n2
          · rw [Bool.not_eq_true] at c3
            simp only [c3, Bool.false_eq_true, if_false]
            by_cases c4 : (a.type == "remove_terrain") = true
            · simp only [c4, if_true]
              exact replayRemoveTerrainAction_ELM u1 u2 hU a n1 n2
            · rw [Bool.not_eq_true] at c4
              simp only [c4, Bool.false_eq_true, if_false]
              by_cases c5 : (a.type == "place_terrain") = true
              · simp only [c5, if_true]
                exact replayPlaceTerrainAction_ELM u1 u2 hU a n1 n2
              · rw [Bool.not_eq_true] at c5
                simp only [c5, Bool.false_eq_true, if_false]
                by_cases c6 : (a.type == "end_turn") = true
                · simp only [c6, if_true]
                  exact nextTurn_ELM u1 u2 hU n1 n2
                · rw [Bool.not_eq_true] at c6
                  simp only [c6, Bool.false_eq_true, if_false]
                  exact hU

/-- The finishing step respects LM-equivalence. -/
theorem replayFinish_ELM (t1 t2 : GameState) (h : eraseLM t1 = eraseLM t2)
    (a : GameAction) :
    eraseLM (replayFinish t1 a) = eraseLM (replayFinish t2 a) := by
  unfold replayFinish
  exact ELM_append_hist t1 t2 h _ _

/-- The finishing step pins lastModified to the action timestamp. -/
theorem replayFinish_lastModified (t : GameState) (a : GameAction) :
    (replayFinish t a).lastModified = a.timestamp := rfl

/-- The finishing step leaves the history nonempty. -/
theorem replayFinish_hist (t : GameState) (a : GameAction) :
    (replayFinish t a).actionHistory
      = t.actionHistory ++ [HistEntry.replayed a] := rfl

/-- One replay step preserves the invariant: LM-equivalence, plus equal
lastModified once the history is nonempty (processed entries pin
lastModified to the action timestamp; skipped entries change nothing). -/
theorem replayAction_inv (f : PieceJSON → Piece) (s1 s2 : GameState)
    (a : GameAction) (n1 n2 : Nat)
    (h : eraseLM s1 = eraseLM s2)
    (hl : s1.actionHistory ≠ [] → s1.lastModified = s2.lastModified) :
    eraseLM (replayAction f s1 a n1) = eraseLM (replayAction f s2 a n2)
    ∧ ((replayAction f s1 a n1).actionHistory ≠ [] →
        (replayAction f s1 a n1).lastModified = (replayAction f s2 a n2).lastModified) := by
  rw [replayAction_def f s1 a n1, replayAction_def f s2 a n2,
    findOrCreatePiece_ELM s1 s2 h a.pieceId a f]
  by_cases hskip :
      ((findOrCreatePiece s2 a.pieceId a f).isNone && (a.type != "end_turn")) = true
  · simp only [hskip, if_true]
    exact ⟨h, hl⟩
  · rw [Bool.not_eq_true] at hskip
    simp only [hskip, Bool.false_eq_true, if_false]
    have h2 := replayStep2_ELM s1 s2 h a
    have h3 := replayDispatch_ELM _ _ h2 (findOrCreatePiece s2 a.pieceId a f) a n1 n2
    refine ⟨replayFinish_ELM _ _ h3 a, fun hne => ?_⟩
    rw [replayFinish_lastModified, replayFinish_lastModified]

/-- Folding the log preserves the replay invariant. -/
theorem replayFold_inv (f : PieceJSON → Piece) (l : List GameAction)
    (s1 s2 : GameState) (n1 n2 : Nat)
    (h : eraseLM s1 = eraseLM s2)
    (hl : s1.actionHistory ≠ [] → s1.lastModified = s2.lastModified) :
    eraseLM (l.foldl (fun s a => replayAction f s a n1) s1)
      = eraseLM (l.foldl (fun s a => replayAction f s a n2) s2)
    ∧ ((l.foldl (fun s a => replayAction f s a n1) s1).actionHistory ≠ [] →
        (l.foldl (fun s a => replayAction f s a n1) s1).lastModified
          = (l.foldl (fun s a => replayAction f s a n2) s2).lastModified) := by
  induction l generalizing s1 s2 with
  | nil => exact ⟨h, hl⟩
  | cons a l ih =>
      simp only [List.foldl_cons]
      obtain ⟨h2, hl2⟩ := replayAction_inv f s1 s2 a n1 n2 h hl
      exact ih _ _ h2 hl2

/-- The initial configuration applied to fresh states is LM-equivalent
whatever the wall clock read (only lastModified can differ: createdAt is
overwritten from the persisted configuration). -/
theorem applyInit_ELM (init : InitialConfiguration) (f : PieceJSON → Piece)
    (isSim : Bool) (n1 n2 : Nat) :
    eraseLM (applyInitialConfiguration (GameState.new isSim n1) init f)
      = eraseLM (applyInitialConfiguration (GameState.new isSim n2) init f) := rfl

/-- The freshly initialised state has an empty history. -/
theorem applyInit_hist (init : InitialConfiguration) (f : PieceJSON → Piece)
    (isSim : Bool) (n : Nat) :
    (applyInitialConfiguration (GameState.new isSim n) init f).actionHistory
      = [] := rfl

/-- LM-equivalent states with equal lastModified are equal. -/
theorem eq_of_ELM_LM (u1 u2 : GameState) (h : eraseLM u1 = eraseLM u2)
    (hlm : u1.lastModified = u2.lastModified) : u1 = u2 := by
  rw [eraseLM_subst u1 u2 h, hlm]

/-- C1 (amended): replay is deterministic once some log entry is fully
processed.  Whenever the replayed state carries a nonempty action history
(i.e. at least one log entry reached the history append, which pins
lastModified to that entry timestamp), two replays of the same
PersistentGameState with the same pieceFromJSON function serialize
identically regardless of the wall-clock instants n1, n2 at which they
run.  Without that hypothesis the claim is false: see
replay_nondeterministic_on_empty_log. -/
theorem replay_deterministic_when_log_processed (P : PersistentGameState)
    (f : PieceJSON → Piece) (isSim : Bool) (n1 n2 : Nat)
    (h : (replayToFullState P f isSim n1).actionHistory ≠ []) :
    (replayToFullState P f isSim n1).toJSON
      = (replayToFullState P f isSim n2).toJSON := by
  have h0 := applyInit_ELM P.initial f isSim n1 n2
  have hl0 : (applyInitialConfiguration (GameState.new isSim n1) P.initial f).actionHistory ≠ [] →
      (applyInitialConfiguration (GameState.new isSim n1) P.initial f).lastModified
        = (applyInitialConfiguration (GameState.new isSim n2) P.initial f).lastModified :=
    fun hne => absurd (applyInit_hist P.initial f isSim n1) hne
  obtain ⟨hE, hL⟩ := replayFold_inv f P.actions _ _ n1 n2 h0 hl0
  have hLM := hL h
  exact congrArg GameState.toJSON (eq_of_ELM_LM _ _ hE hLM)

/-- C1 counterexample: with an empty action log nothing ever overwrites
the wall-clock lastModified stamped by the GameState constructor, so two
replays of the same persistent state at different instants serialize
differently — the claim as stated (determinism regardless of call time)
is false. -/
theorem replay_nondeterministic_on_empty_log :
    (replayToFullState exPersistEmpty stdPieceFromJSON false 0).toJSON
      ≠ (replayToFullState exPersistEmpty stdPieceFromJSON false 1).toJSON := by
  decide

/-- C1 witness: a log whose single end_turn entry is fully processed, so
the amended determinism theorem applies at distinct instants 5 and 9. -/
theorem replay_deterministic_witness :
    (replayToFullState exPersistOne stdPieceFromJSON false 5).actionHistory ≠ []
    ∧ (replayToFullState exPersistOne stdPieceFromJSON false 5).toJSON
        = (replayToFullState exPersistOne stdPieceFromJSON false 9).toJSON :=
  ⟨by decide, replay_deterministic_when_log_processed exPersistOne stdPieceFromJSON
    false 5 9 (by decide)⟩

end Citadel2
